import Mathlib

/-!
Verification development for the Auto_Event_LLM extraction engine.

The definitions below are a shallow embedding of the Python source:

* `event_category/event_category/spiders/universal_spider.py`
  (date / time / target-group / location / status normalisation and the
  Skansen day-stepping branch of `MultiSiteEventSpider.parse`),
* `event_category/event_category/utils/db_manager.py`
  (`upsert_event`, `get_events_filtered`, `_expand_event_across_days`,
  `get_selectors`, `save_selectors`),
* `event_category/event_category/utils/selector_discovery_service.py`
  (`save_selectors_to_db`, `discover_and_save`),
* `event_category/event_category/utils/auto_selector_discovery.py`
  (`_validate_selectors_against_html`).

Modelling conventions:

* Python strings are modelled as `String` / `List Char`; regex character
  classes are modelled at the ASCII level (plus the Swedish letters that
  actually occur in the source patterns).
* Calendar dates are day ordinals (`Nat`, days since 0001-01-01, as in
  CPython `date.toordinal`); `parseIso` models
  `datetime.strptime(s, "%Y-%m-%d").date()` and `formatIso` models
  `date.strftime("%Y-%m-%d")`.
* SQLite TEXT comparison (`memcmp` on UTF-8) and Python `str` comparison
  are both modelled by `strLe` (lexicographic on code points).
* `datetime.now()` is a parameter (`today` as an ordinal, or the triple
  `ty tm td` for year/month/day).
-/

namespace AutoEvent

/-! ## Character-level utilities -/

/-- ASCII decimal digit, the model of the regex class `\d`. -/
def isDigitChar (c : Char) : Bool := 48 ≤ c.toNat ∧ c.toNat ≤ 57

/-- Whitespace as recognised by Python `str.strip` / the regex class `\s`
(ASCII fragment: space, tab, newline, carriage return, vertical tab, form feed). -/
def isPySpace (c : Char) : Bool :=
  c.toNat = 32 ∨ c.toNat = 9 ∨ c.toNat = 10 ∨ c.toNat = 13 ∨ c.toNat = 11 ∨ c.toNat = 12

/-- Model of Python `str.lower` on one character (ASCII plus Å/Ä/Ö, the only
non-ASCII letters appearing in the source's patterns). -/
def toLowerPy (c : Char) : Char :=
  if 65 ≤ c.toNat ∧ c.toNat ≤ 90 then Char.ofNat (c.toNat + 32)
  else if c = 'Å' then 'å'
  else if c = 'Ä' then 'ä'
  else if c = 'Ö' then 'ö'
  else c

def lowerChars (l : List Char) : List Char := l.map toLowerPy

/-- Left part of Python `str.strip`. -/
def lstripChars (l : List Char) : List Char := l.dropWhile isPySpace

/-- Right part of Python `str.strip`. -/
def rstripChars : List Char → List Char
  | [] => []
  | c :: cs =>
    match rstripChars cs with
    | [] => if isPySpace c then [] else [c]
    | r => c :: r

/-- Model of Python `str.strip()`. -/
def stripChars (l : List Char) : List Char := rstripChars (lstripChars l)

/-- Prefix test on character lists. -/
def startsWithL : List Char → List Char → Bool
  | [], _ => true
  | _ :: _, [] => false
  | a :: ps, b :: ls => a = b ∧ startsWithL ps ls

/-- Contiguous-substring test, the model of Python `pat in s`. -/
def containsL (p : List Char) : List Char → Bool
  | [] => startsWithL p []
  | l@(_ :: ls) => startsWithL p l ∨ containsL p ls

/-- Fuel-driven worker for `removeAllL` (fuel bounds the scan length, so the
recursion is structural and kernel-reducible). -/
def removeAllAux (p : List Char) : Nat → List Char → List Char
  | 0, l => l
  | _ + 1, [] => []
  | fuel + 1, l@(c :: cs) =>
    if startsWithL p l ∧ p ≠ [] then removeAllAux p fuel (l.drop p.length)
    else c :: removeAllAux p fuel cs

/-- Model of Python `s.replace(pat, "")` for a non-empty pattern
(left-to-right, non-overlapping). -/
def removeAllL (p : List Char) (l : List Char) : List Char := removeAllAux p l.length l

/-- Numeric value of a digit string, the model of Python `int(...)` on a
string of ASCII digits. -/
def digitsVal (l : List Char) : Nat := l.foldl (fun a c => 10 * a + (c.toNat - 48)) 0

def allDigits (l : List Char) : Bool := l.all isDigitChar

/-- Fuel-driven worker for `natDigits` (structural, kernel-reducible). -/
def natDigitsAux : Nat → Nat → List Char
  | 0, _ => []
  | fuel + 1, n =>
    if n < 10 then [Char.ofNat (48 + n)]
    else natDigitsAux fuel (n / 10) ++ [Char.ofNat (48 + n % 10)]

/-- Decimal digits of a natural number, the model of Python `str(n)` /
`f-string` formatting of a nonnegative int. -/
def natDigits (n : Nat) : List Char := natDigitsAux (n + 1) n

/-- Zero-padded decimal rendering, the model of `f"{n:0wd}"`. -/
def padNum (w n : Nat) : List Char :=
  List.replicate (w - (natDigits n).length) '0' ++ natDigits n

/-- Lexicographic order on code points: the shared model of Python `str`
comparison and SQLite `memcmp` TEXT comparison. -/
def strLeChars : List Char → List Char → Bool
  | [], _ => true
  | _ :: _, [] => false
  | a :: as, b :: bs =>
    if a.toNat < b.toNat then true
    else if b.toNat < a.toNat then false
    else strLeChars as bs

def strLe (a b : String) : Bool := strLeChars a.data b.data

def strLt (a b : String) : Bool := strLe a b ∧ a ≠ b

/-! ## Calendar model

CPython `datetime.date` arithmetic.  `toOrdinal` models `date.toordinal()`
(via the `_ymd2ord` formula); `fromOrdinal` models `date.fromordinal`
(`_ord2ymd`).  Ordinal 1 is 0001-01-01. -/

def leapYear (y : Nat) : Bool := y % 4 = 0 ∧ (y % 100 ≠ 0 ∨ y % 400 = 0)

/-- Length of month `m` (1-12) in a (non-)leap year. -/
def daysInMonthTbl (leap : Bool) : Nat → Nat
  | 1 => 31 | 2 => if leap then 29 else 28 | 3 => 31 | 4 => 30
  | 5 => 31 | 6 => 30 | 7 => 31 | 8 => 31
  | 9 => 30 | 10 => 31 | 11 => 30 | 12 => 31
  | _ => 0

def daysInMonth (y m : Nat) : Nat := daysInMonthTbl (leapYear y) m

/-- Days before month `m` in a non-leap year (CPython `_DAYS_BEFORE_MONTH`). -/
def daysBeforeMonthPlain : Nat → Nat
  | 0 => 0
  | 1 => 0
  | m + 2 => daysBeforeMonthPlain (m + 1) + daysInMonthTbl false (m + 1)

/-- Days before month `m` in year `y`. -/
def daysBeforeMonth (y : Nat) (m : Nat) : Nat :=
  daysBeforeMonthPlain m + (if 2 < m ∧ leapYear y then 1 else 0)

/-- CPython `date.toordinal` (`_ymd2ord`). -/
def toOrdinal (y m d : Nat) : Nat :=
  365 * (y - 1) + (y - 1) / 4 - (y - 1) / 100 + (y - 1) / 400 + daysBeforeMonth y m + d

/-- CPython `date.fromordinal` (`_ord2ymd`). -/
def fromOrdinal (n : Nat) : Nat × Nat × Nat :=
  let n0 := n - 1
  let n400 := n0 / 146097
  let r1 := n0 % 146097
  let n100 := r1 / 36524
  let r2 := r1 % 36524
  let n4 := r2 / 1461
  let r3 := r2 % 1461
  let n1 := r3 / 365
  let r4 := r3 % 365
  let year := n400 * 400 + 1 + n100 * 100 + n4 * 4 + n1
  if n1 = 4 ∨ n100 = 4 then (year - 1, 12, 31)
  else
    let leap := n1 = 3 ∧ (n4 ≠ 24 ∨ n100 = 3)
    let month0 := (r4 + 50) / 32
    let pre0 := daysBeforeMonthPlain month0 + (if 2 < month0 ∧ leap then 1 else 0)
    if r4 < pre0 then
      let month := month0 - 1
      let pre := pre0 - (daysInMonthTbl leap month)
      (year, month, r4 - pre + 1)
    else
      (year, month0, r4 - pre0 + 1)

/-- Split a character list on a separator character (Python `str.split(sep)`). -/
def splitOnChar (sep : Char) : List Char → List (List Char)
  | [] => [[]]
  | c :: cs =>
    let r := splitOnChar sep cs
    if c = sep then [] :: r
    else
      match r with
      | h :: t => (c :: h) :: t
      | [] => [[c]]

/-- Model of `datetime.strptime(s, "%Y-%m-%d").date().toordinal()` wrapped in
`try/except`: `%Y` is exactly four digits, `%m`/`%d` are one or two digits
with range checks, the whole string must be consumed, and the `date`
constructor validates the day against the month length. -/
def parseIso (s : String) : Option Nat :=
  match splitOnChar '-' s.data with
  | [ys, ms, ds] =>
    if allDigits ys ∧ ys.length = 4 ∧ allDigits ms ∧ 1 ≤ ms.length ∧ ms.length ≤ 2
        ∧ allDigits ds ∧ 1 ≤ ds.length ∧ ds.length ≤ 2 then
      let y := digitsVal ys
      let m := digitsVal ms
      let d := digitsVal ds
      if 1 ≤ y ∧ 1 ≤ m ∧ m ≤ 12 ∧ 1 ≤ d ∧ d ≤ daysInMonth y m then
        some (toOrdinal y m d)
      else none
    else none
  | _ => none

/-- Model of `date.strftime("%Y-%m-%d")`. -/
def formatIso (n : Nat) : String :=
  match fromOrdinal n with
  | (y, m, d) => String.mk (padNum 4 y ++ '-' :: (padNum 2 m ++ '-' :: padNum 2 d))

example : parseIso (String.mk ['2','0','2','5','-','0','6','-','0','1']) = some (toOrdinal 2025 6 1) := by decide
example : formatIso (toOrdinal 2025 6 1) = String.mk ['2','0','2','5','-','0','6','-','0','1'] := by decide
example : formatIso (toOrdinal 2025 6 1 + 30) = String.mk ['2','0','2','5','-','0','7','-','0','1'] := by decide
example : parseIso (String.mk ['N','/','A']) = none := by decide
example : parseIso (String.mk ['2','0','2','5','-','9','9','-','9','9']) = none := by decide
example : parseIso (String.mk ['2','0','2','4','-','0','2','-','2','9']) = some (toOrdinal 2024 2 29) := by decide
example : parseIso (String.mk ['2','0','2','3','-','0','2','-','2','9']) = none := by decide

/-! ## URL helpers

Fragment of `urllib.parse.urlparse` used by the source: `netloc` and `path`
of an absolute `scheme://netloc/path?query#fragment` URL, and the source's
`netloc.replace("www.", "")` domain normalisation. -/

/-- Remainder of the character list after the first `://`. -/
def afterScheme : List Char → Option (List Char)
  | ':' :: '/' :: '/' :: rest => some rest
  | _ :: cs => afterScheme cs
  | [] => none

/-- `(netloc, path)` of a URL; the query and fragment are cut off the path. -/
def urlNetlocPath (url : String) : String × String :=
  match afterScheme url.data with
  | some rest =>
    let netloc := rest.takeWhile (fun c => c ≠ '/' ∧ c ≠ '?' ∧ c ≠ '#')
    let path := (rest.drop netloc.length).takeWhile (fun c => c ≠ '?' ∧ c ≠ '#')
    (String.mk netloc, String.mk path)
  | none => (String.mk [], String.mk (url.data.takeWhile (fun c => c ≠ '?' ∧ c ≠ '#')))

/-- Model of `netloc.replace("www.", "")`. -/
def stripWww (netloc : String) : String :=
  String.mk (removeAllL ("www.").data netloc.data)

/-- Domain of a URL as computed throughout `db_manager.py`:
`urlparse(url).netloc.replace("www.", "")`. -/
def urlDomain (url : String) : String := stripWww (urlNetlocPath url).1

/-- Model of `path.rstrip('/')`. -/
def rstripSlash (s : String) : String :=
  String.mk ((s.data.reverse.dropWhile (fun c => c = '/')).reverse)

/-! ## Event rows and `DatabaseManager.upsert_event`

A row of the `events` table.  The surrogate `id` column is not modelled
(`ON CONFLICT … DO UPDATE` keeps it unchanged on conflict, and no claim
mentions it); timestamps are abstract `Nat` instants. -/

structure EventRow where
  event_name : String
  date_iso : String
  event_url : String
  end_date_iso : Option String
  time : Option String
  location : Option String
  target_group : Option String
  status : Option String
  booking_info : Option String
  description : Option String
  last_scraped : Nat
deriving DecidableEq, Repr

/-- The scraped item handed to `upsert_event` (`event_data` dict); the row's
`target_group` column is filled from `target_group_normalized`. -/
structure EventData where
  event_name : String
  date_iso : String
  event_url : String
  end_date_iso : Option String
  time : Option String
  location : Option String
  target_group_normalized : Option String
  status : Option String
  booking_info : Option String
  description : Option String
deriving DecidableEq, Repr

/-- Identity triple `(event_name, date_iso, event_url)` — the UNIQUE key of
the `events` table. -/
def rowKey (r : EventRow) : String × String × String :=
  (r.event_name, r.date_iso, r.event_url)

def dataKey (e : EventData) : String × String × String :=
  (e.event_name, e.date_iso, e.event_url)

/-- The row written by `upsert_event` at instant `now`
(`last_scraped = CURRENT_TIMESTAMP`). -/
def rowOfData (e : EventData) (now : Nat) : EventRow :=
  { event_name := e.event_name
    date_iso := e.date_iso
    event_url := e.event_url
    end_date_iso := e.end_date_iso
    time := e.time
    location := e.location
    target_group := e.target_group_normalized
    status := e.status
    booking_info := e.booking_info
    description := e.description
    last_scraped := now }

/-- Model of `DatabaseManager.upsert_event`: `INSERT … ON CONFLICT(event_name,
date_iso, event_url) DO UPDATE SET` every non-identity column (and
`last_scraped = CURRENT_TIMESTAMP`).  On conflict the existing row is updated
in place; otherwise the new row is appended. -/
def upsert_event (store : List EventRow) (e : EventData) (now : Nat) : List EventRow :=
  match store with
  | [] => [rowOfData e now]
  | r :: rs =>
    if rowKey r = dataKey e then rowOfData e now :: rs
    else r :: upsert_event rs e now

/-- A row with the timestamp column dropped: the "state of the store except
for `last_scraped`". -/
def eraseTs (r : EventRow) : EventRow := { r with last_scraped := 0 }

/-! ## `DatabaseManager._expand_event_across_days` -/

/-- One per-day virtual copy produced by the expansion loop
(`event_copy['date_iso'] = current_date.strftime(...)`,
`event_copy['end_date_iso'] = 'N/A'`). -/
def setDayCopy (ev : EventRow) (d : Nat) : EventRow :=
  { ev with date_iso := formatIso d, end_date_iso := some ("N/A") }

/-- The `while current_date <= effective_end_date` loop, iterated `fuel` times
starting at day `cur`.  `none` models the `ValueError` raised by
`strptime(filter_date, ...)` on a malformed `filter_date` (the surrounding
`try/except` then returns the original event). -/
def expandIter (ev : EventRow) (filterDate : Option String) : Nat → Nat → Option (List EventRow)
  | _, 0 => some []
  | cur, fuel + 1 =>
    match filterDate with
    | some fs =>
      match parseIso fs with
      | none => none
      | some fd =>
        if cur = fd then some [setDayCopy ev cur]
        else expandIter ev filterDate (cur + 1) fuel
    | none =>
      match expandIter ev none (cur + 1) fuel with
      | some rest => some (setDayCopy ev cur :: rest)
      | none => none

/-- Model of `DatabaseManager._expand_event_across_days(event, filter_date)`.
`today` is `datetime.now().date()` as an ordinal. -/
def expand_event_across_days (today : Nat) (ev : EventRow) (filterDate : Option String) :
    List EventRow :=
  if ev.date_iso = "" then [ev]
  else
    match parseIso ev.date_iso with
    | none => [ev]
    | some s =>
      match ev.end_date_iso with
      | none => [ev]
      | some es =>
        if es = "" ∨ es = "N/A" then [ev]
        else
          match parseIso es with
          | none => [ev]
          | some e =>
            if s = e then [ev]
            else
              let effEnd := min e (today + 30)
              let effStart := max s today
              match expandIter ev filterDate effStart (effEnd + 1 - effStart) with
              | some l => l
              | none => [ev]

/-! ## `DatabaseManager.get_events_filtered` -/

/-- One row of the `scraping_urls` table. -/
structure SourceUrl where
  url : String
  name : String
  enabled : Bool
deriving DecidableEq, Repr

/-- The keyword arguments of `get_events_filtered`. -/
structure FilterQuery where
  search : String
  venue : String
  dateRange : String
  targetGroups : List String
  source : String
  page : Nat
  perPage : Nat
  filterDate : Option String
deriving Repr

/-- ASCII lowering, the case folding SQLite `LIKE` applies. -/
def toLowerAscii (c : Char) : Char :=
  if 65 ≤ c.toNat ∧ c.toNat ≤ 90 then Char.ofNat (c.toNat + 32) else c

/-- Model of `column LIKE '%pat%'` (ASCII-case-insensitive substring; the
searches issued by the source contain no `%`/`_` wildcards of their own). -/
def likeSub (pat s : String) : Bool :=
  containsL (pat.data.map toLowerAscii) (s.data.map toLowerAscii)

/-- Model of Python `str.lower` on a whole string. -/
def lowerStr (s : String) : String := String.mk (lowerChars s.data)

/-- `group_map.get(g, g.lower())` from `get_events_filtered`. -/
def dbGroup (g : String) : String :=
  if g = "Children" then "children"
  else if g = "Adults" then "adults"
  else if g = "Families" then "families"
  else lowerStr g

/-- `end_date_iso >= x AND end_date_iso != 'N/A'` under SQL semantics
(`NULL` comparisons are not true). -/
def endOnOrAfter (x : String) (ev : EventRow) : Bool :=
  match ev.end_date_iso with
  | some es => strLe x es && !(es == "N/A")
  | none => false

/-- The WHERE clause assembled by `get_events_filtered`. -/
def sqlKeep (urls : List SourceUrl) (todayS weekEnd monthEnd : String) (q : FilterQuery)
    (ev : EventRow) : Bool :=
  (q.search == "" || likeSub q.search ev.event_name)
  && (q.venue == "" || q.venue == "All Venues" || ev.location == some q.venue)
  && (if q.source ≠ "" ∧ q.source ≠ "All Sources" then
      match urls.find? (fun u => u.name = q.source) with
      | some u => likeSub (urlDomain u.url) ev.event_url
      | none => true
    else true)
  && (match q.filterDate with
    | some fd =>
      ev.date_iso == fd || (strLe ev.date_iso fd && endOnOrAfter fd ev)
    | none =>
      (strLe todayS ev.date_iso || endOnOrAfter todayS ev)
      && (!(q.dateRange == "This Week") || strLe ev.date_iso weekEnd)
      && (!(q.dateRange == "Next 30 Days") || strLe ev.date_iso monthEnd))
  && (if q.targetGroups ≠ [] ∧ ¬ q.targetGroups.contains ("All") then
      match ev.target_group with
      | some tg => (q.targetGroups.map dbGroup).contains tg
      | none => false
    else true)

/-- `ORDER BY date_iso ASC` / `expanded_events.sort(key=lambda x: x['date_iso'])`:
a stable sort on the date string. -/
def sortByDate (l : List EventRow) : List EventRow :=
  List.insertionSort (fun a b => strLe a.date_iso b.date_iso = true) l

/-- The fully expanded, filtered and sorted event list of
`get_events_filtered` (everything before pagination). -/
def expandedEvents (store : List EventRow) (urls : List SourceUrl) (today : Nat)
    (q : FilterQuery) : List EventRow :=
  let todayS := formatIso today
  let weekEnd := formatIso (today + 7)
  let monthEnd := formatIso (today + 30)
  let rows := sortByDate (store.filter (sqlKeep urls todayS weekEnd monthEnd q))
  let expanded := rows.flatMap (fun ev => expand_event_across_days today ev q.filterDate)
  let expanded :=
    match q.filterDate with
    | none => expanded.filter (fun ev => strLe todayS ev.date_iso)
    | some _ => expanded
  sortByDate expanded

/-- Model of `DatabaseManager.get_events_filtered`: returns
`(paginated_events, total)`. -/
def get_events_filtered (store : List EventRow) (urls : List SourceUrl) (today : Nat)
    (q : FilterQuery) : List EventRow × Nat :=
  let expanded := expandedEvents store urls today q
  let total := expanded.length
  let paginated := (expanded.drop ((q.page - 1) * q.perPage)).take q.perPage
  (paginated, total)

/-! ## `parse_swedish_date` (universal_spider.py)

The three regexes are modelled character-by-character:

* the ISO prefix `^(\d{4}-\d{2}-\d{2})` as a shape test on the first ten
  characters,
* the day/month form `(\d{1,2})\s+([a-zåäö]+)` as a leftmost scan with the
  regex's greedy/backtracking behaviour (two digits tried before one),
* the explicit year `\b(20\d{2})\b` as a leftmost scan with word boundaries.
-/

/-- Shape `\d{4}-\d{2}-\d{2}` of the first ten characters. -/
def shape10 : List Char → Bool
  | c0 :: c1 :: c2 :: c3 :: c4 :: c5 :: c6 :: c7 :: c8 :: c9 :: _ =>
    isDigitChar c0 && isDigitChar c1 && isDigitChar c2 && isDigitChar c3 && c4 == '-'
      && isDigitChar c5 && isDigitChar c6 && c7 == '-' && isDigitChar c8 && isDigitChar c9
  | _ => false

/-- Letters of the month-name class `[a-zåäö]`. -/
def isSwLetter (c : Char) : Bool :=
  (97 ≤ c.toNat ∧ c.toNat ≤ 122) ∨ c = 'å' ∨ c = 'ä' ∨ c = 'ö'

/-- After the day digits: `\s+([a-zåäö]+)`; returns the captured month name. -/
def monthTail (l : List Char) : Option (List Char) :=
  let sp := l.takeWhile isPySpace
  if sp = [] then none
  else
    let after := l.dropWhile isPySpace
    let name := after.takeWhile isSwLetter
    if name = [] then none else some name

/-- Try `(\d{1,2})\s+([a-zåäö]+)` anchored at the head of `l` (greedy: two
digits before one). -/
def dayMonthAt (l : List Char) : Option (Nat × List Char) :=
  match l with
  | d1 :: rest1 =>
    if isDigitChar d1 then
      match rest1 with
      | d2 :: rest2 =>
        if isDigitChar d2 then
          match monthTail rest2 with
          | some name => some (digitsVal [d1, d2], name)
          | none =>
            match monthTail rest1 with
            | some name => some (digitsVal [d1], name)
            | none => none
        else
          match monthTail rest1 with
          | some name => some (digitsVal [d1], name)
          | none => none
      | [] => none
    else none
  | [] => none

/-- Leftmost search for the day/month pattern (`re.search`). -/
def findDayMonth : List Char → Option (Nat × List Char)
  | [] => none
  | l@(_ :: cs) =>
    match dayMonthAt l with
    | some r => some r
    | none => findDayMonth cs

/-- Word characters for the `\b` boundaries of `\b(20\d{2})\b` (ASCII word
characters plus the Swedish letters occurring in the inputs). -/
def isWordChar (c : Char) : Bool :=
  isDigitChar c ∨ (97 ≤ c.toNat ∧ c.toNat ≤ 122) ∨ (65 ≤ c.toNat ∧ c.toNat ≤ 90) ∨ c = '_'
    ∨ c = 'å' ∨ c = 'ä' ∨ c = 'ö' ∨ c = 'Å' ∨ c = 'Ä' ∨ c = 'Ö'

/-- Try `20\d{2}` with a right word boundary anchored at the head of `l`. -/
def yearAt : List Char → Option Nat
  | c0 :: c1 :: a :: b :: rest =>
    if c0 = '2' ∧ c1 = '0' ∧ isDigitChar a ∧ isDigitChar b
        ∧ (rest = [] ∨ (rest.head?.all (fun c => !(isWordChar c)))) then
      some (2000 + 10 * (a.toNat - 48) + (b.toNat - 48))
    else none
  | _ => none

/-- Leftmost search for `\b(20\d{2})\b`; `prevW` says whether the previous
character was a word character (for the left boundary). -/
def findYearAux : Bool → List Char → Option Nat
  | _, [] => none
  | prevW, l@(c :: cs) =>
    match (if prevW then none else yearAt l) with
    | some y => some y
    | none => findYearAux (isWordChar c) cs

def findYear (l : List Char) : Option Nat := findYearAux false l

/-- The `SWEDISH_MONTHS` dictionary. -/
def swedishMonthTable : List (String × Nat) :=
  [("januari", 1), ("jan", 1), ("january", 1),
   ("februari", 2), ("feb", 2), ("february", 2),
   ("mars", 3), ("mar", 3), ("march", 3),
   ("april", 4), ("apr", 4),
   ("maj", 5), ("may", 5),
   ("juni", 6), ("jun", 6), ("june", 6),
   ("juli", 7), ("jul", 7), ("july", 7),
   ("augusti", 8), ("aug", 8), ("august", 8),
   ("september", 9), ("sep", 9), ("sept", 9),
   ("oktober", 10), ("okt", 10), ("october", 10), ("oct", 10),
   ("november", 11), ("nov", 11),
   ("december", 12), ("dec", 12)]

/-- `SWEDISH_MONTHS.get(month_name)`. -/
def swedishMonth (name : List Char) : Option Nat :=
  (swedishMonthTable.find? (fun p => p.1.data = name)).map (fun p => p.2)

/-- `date_str.strip().lower()`, the normalisation at the top of
`parse_swedish_date`. -/
def normChars (s : String) : List Char := lowerChars (stripChars s.data)

/-- Model of `parse_swedish_date(date_str)`.  `ty`/`tm`/`td` are the year,
month and day of `datetime.now()`. -/
def parse_swedish_date (ty tm td : Nat) (s : String) : Option String :=
  if s.data = [] then none
  else if shape10 (normChars s) then some (String.mk ((normChars s).take 10))
  else
    (findDayMonth (normChars s)).bind (fun dm =>
      (swedishMonth dm.2).map (fun mon =>
        String.mk (natDigits
            ((findYear (normChars s)).getD
              (if mon < tm ∨ (mon = tm ∧ dm.1 < td) then ty + 1 else ty))
          ++ '-' :: (padNum 2 mon ++ '-' :: padNum 2 dm.1))))

example : parse_swedish_date 2025 11 20 "24 december" = some ("2025-12-24") := by decide
example : parse_swedish_date 2025 11 20 "tis 24 dec" = some ("2025-12-24") := by decide
example : parse_swedish_date 2025 11 20 "26 dec 2025" = some ("2025-12-26") := by decide
example : parse_swedish_date 2025 11 20 "2025-12-26 10:30" = some ("2025-12-26") := by decide
example : parse_swedish_date 2025 11 20 "2025-99-99" = some ("2025-99-99") := by decide
example : parse_swedish_date 2025 11 20 "10 november" = some ("2026-11-10") := by decide
example : parse_swedish_date 2025 11 20 "2 januari" = some ("2026-01-02") := by decide
example : parse_swedish_date 2025 11 20 "hello" = none := by decide
example : parse_swedish_date 2025 11 20 "  Today, 24 December 2025  " = some ("2025-12-24") := by decide
example : parse_swedish_date 2025 11 20 "24 dec 1999" = some ("2025-12-24") := by decide
example : parse_swedish_date 2025 11 20 "123 dec" = some ("2025-12-23") := by decide
example : parse_swedish_date 2025 11 20 "0 december" = some ("2025-12-00") := by decide
example : parse_swedish_date 2025 11 20 "24 decemberx" = none := by decide
example : parse_swedish_date 2025 11 20 "x24 dec" = some ("2025-12-24") := by decide

/-! ## `selector_configs` table: `get_selectors` / `save_selectors`

The `item_selectors_json` column is modelled as the parsed field map rather
than its JSON text (`json.dumps` of a dict is always a non-empty string, so
the source's truthiness test `if row and row[1]` is `Option.isSome` here). -/

structure SelRow where
  domain : String
  urlPattern : String
  container : Option String
  items : Option (List (String × String))
deriving DecidableEq, Repr

/-- The bundle dict returned by `get_selectors`. -/
structure SelBundle where
  container : Option String
  items : List (String × String)
deriving DecidableEq, Repr

/-- Model of `DatabaseManager.get_selectors(url)`: exact match on
`(domain, path)` or `(domain, path + '/')` after `path.rstrip('/')`, then a
domain-only fallback (`LIMIT 1` without `ORDER BY`: first row in insertion
order). -/
def get_selectors (store : List SelRow) (url : String) : Option SelBundle :=
  let np := urlNetlocPath url
  let domain := stripWww np.1
  let path := rstripSlash np.2
  let row :=
    match store.find? (fun r => r.domain = domain
        ∧ (r.urlPattern = path ∨ r.urlPattern = path ++ "/")) with
    | some r => some r
    | none => store.find? (fun r => r.domain = domain)
  match row with
  | some r =>
    match r.items with
    | some its => some { container := r.container, items := its }
    | none => none
  | none => none

/-- Model of `DatabaseManager.save_selectors(url, container, items)`:
upsert keyed on `(domain, url_pattern)` where `url_pattern = parsed.path`
(not rstripped on the write side). -/
def save_selectors (store : List SelRow) (url : String) (container : String)
    (items : List (String × String)) : List SelRow :=
  let np := urlNetlocPath url
  let domain := stripWww np.1
  let pat := np.2
  let rec go : List SelRow → List SelRow
    | [] => [{ domain := domain, urlPattern := pat, container := some container,
               items := some items }]
    | r :: rs =>
      if r.domain = domain ∧ r.urlPattern = pat then
        { r with container := some container, items := some items } :: rs
      else r :: go rs
  go store

/-! ## Discoverer: `SelectorDiscoveryService` and
`AutoSelectorDiscovery._validate_selectors_against_html` -/

/-- An entry of the AI bundle's `items` map: either a bare CSS string or an
object `{"selector": …, "alternative": …}`. -/
inductive ItemCfg where
  | plain (s : String)
  | obj (selector : Option String)
deriving DecidableEq, Repr

/-- The AI-discovered bundle (`discovery_result['selectors']`). -/
structure AISelectors where
  container : Option String
  items : List (String × ItemCfg)
deriving DecidableEq, Repr

/-- The outcome of `discover_selectors` (success flag, bundle and the
discovery confidence `confidence['overall']`). -/
structure DiscoveryOutcome where
  success : Bool
  selectors : AISelectors
  confidence : ℚ
deriving Repr

/-- `required_fields` of `AutoSelectorDiscovery`. -/
def requiredFields : List String :=
  ["event_name", "date_iso", "time", "location", "description", "target_group", "status"]

/-- Per-field status strings of the validation report. -/
inductive FieldStatus where
  | notProvided
  | emptySelector
  | pass
  | fail
deriving DecidableEq, Repr

/-- The part of the validation report the claims mention. -/
structure ValidationReport where
  valid : Bool
  adjusted_confidence : ℚ
  fieldStatus : List (String × FieldStatus)
deriving Repr

/-- Field lookup in the `items` dict. -/
def lookupItem (items : List (String × ItemCfg)) (f : String) : Option ItemCfg :=
  (items.find? (fun p => p.1 = f)).map (·.2)

/-- Status of one required field, given `selectCount`, the number of matches
`container.select(field_selector)` finds across the tested containers
(the BeautifulSoup call is external; its result is a parameter). -/
def fieldStatusOf (selectCount : String → Nat) (items : List (String × ItemCfg))
    (f : String) : FieldStatus :=
  match lookupItem items f with
  | none => .notProvided
  | some cfg =>
    let sel : Option String := match cfg with | .plain s => some s | .obj o => o
    match sel with
    | none => .emptySelector
    | some s =>
      if s = "" ∨ s = "null" then .emptySelector
      else if 0 < selectCount s then .pass else .fail

/-- Model of `AutoSelectorDiscovery._validate_selectors_against_html`:
`containerMatches` is the number of elements the container selector finds in
the page HTML; `selectCount` the per-field match counts.  The adjusted
confidence is `passed / total` where `total` counts only fields with status
PASS or FAIL. -/
def validate_selectors_against_html (selectCount : String → Nat)
    (sels : AISelectors) (containerMatches : Nat) : ValidationReport :=
  match sels.container with
  | none => { valid := false, adjusted_confidence := 0, fieldStatus := [] }
  | some c =>
    if c = "" then { valid := false, adjusted_confidence := 0, fieldStatus := [] }
    else if containerMatches = 0 then
      { valid := false, adjusted_confidence := 0, fieldStatus := [] }
    else
      let st := requiredFields.map (fun f => (f, fieldStatusOf selectCount sels.items f))
      let passed := (st.filter (fun p => p.2 = FieldStatus.pass)).length
      let total := (st.filter (fun p => p.2 = FieldStatus.pass ∨ p.2 = FieldStatus.fail)).length
      let adj : ℚ := if 0 < total then (passed : ℚ) / (total : ℚ) else 1
      { valid := !(decide (adj < 6/10)), adjusted_confidence := adj, fieldStatus := st }

/-- `SelectorDiscoveryService.save_selectors_to_db`: convert the AI item map
to the DB format (dropping null/"null"/empty selectors) and write it; fails
only when the container selector is missing/empty. -/
def save_selectors_to_db (store : List SelRow) (url : String) (sels : AISelectors) :
    Bool × List SelRow :=
  match sels.container with
  | none => (false, store)
  | some c =>
    if c = "" then (false, store)
    else
      let dbItems := sels.items.filterMap (fun p =>
        match p.2 with
        | .plain s => some (p.1, s)
        | .obj (some s) => if s ≠ "" ∧ s ≠ "null" then some (p.1, s) else none
        | .obj none => none)
      (true, save_selectors store url c dbItems)

/-- The result record of `discover_and_save` (the fields the claims touch). -/
structure DiscoverResult where
  success : Bool
  saved : Bool
  confidence : ℚ
deriving Repr

/-- Model of `SelectorDiscoveryService.discover_and_save`: on a successful
discovery the bundle is written to the database whenever
`confidence > 0.3` ("TEMPORARILY LOWERED" in the source); otherwise
`saved = False` with a warning. -/
def discover_and_save (store : List SelRow) (url : String) (o : DiscoveryOutcome) :
    DiscoverResult × List SelRow :=
  if !o.success then ({ success := false, saved := false, confidence := 0 }, store)
  else if (3 : ℚ)/10 < o.confidence then
    let r := save_selectors_to_db store url o.selectors
    ({ success := true, saved := r.1, confidence := o.confidence }, r.2)
  else
    ({ success := true, saved := false, confidence := o.confidence }, store)

/-! ## Normalizer: `extract_time_only` -/

/-- Try `\d{1,2}[:.]\d{2}` anchored at the head; returns `(matched, rest)`.
A run of three or more digits cannot start the hour (the separator test
fails for both greedy choices), hence the length guard. -/
def hmAt (l : List Char) : Option (List Char × List Char) :=
  let r := l.takeWhile isDigitChar
  if r.length = 0 ∨ 2 < r.length then none
  else
    match l.drop r.length with
    | c :: c1 :: c2 :: rest =>
      if (c = ':' ∨ c = '.') ∧ isDigitChar c1 ∧ isDigitChar c2 then
        some (r ++ c :: [c1, c2], rest)
      else none
    | _ => none

/-- Try `(?:\s*-\s*\d{1,2}[:.]\d{2})` anchored at the head (the optional
range tail of patterns 2 and 3); returns the captured characters and rest. -/
def timeRangeTail (l : List Char) : Option (List Char × List Char) :=
  let sp1 := l.takeWhile isPySpace
  match l.drop sp1.length with
  | '-' :: r2 =>
    let sp2 := r2.takeWhile isPySpace
    match hmAt (r2.drop sp2.length) with
    | some (hm2, rest) => some (sp1 ++ '-' :: (sp2 ++ hm2), rest)
    | none => none
  | _ => none

/-- Pattern 1 of `extract_time_only`, anchored at the head:
`\d{4}-\d{2}-\d{2}[T\s](\d{1,2}[:.]\d{2}(?:[:.]\d{2})?)`. -/
def dtTimeAt (l : List Char) : Option (List Char) :=
  if shape10 l then
    match l.drop 10 with
    | c :: rest =>
      if c = 'T' ∨ isPySpace c then
        match hmAt rest with
        | some (hm, r) =>
          match r with
          | s :: d1 :: d2 :: _ =>
            if (s = ':' ∨ s = '.') ∧ isDigitChar d1 ∧ isDigitChar d2 then
              some (hm ++ s :: [d1, d2])
            else some hm
          | _ => some hm
        | none => none
      else none
    | [] => none
  else none

/-- Pattern 2 anchored at the head (IGNORECASE):
`Tid:\s*(\d{1,2}[:.]\d{2}(?:\s*-\s*\d{1,2}[:.]\d{2})?)`. -/
def tidAt (l : List Char) : Option (List Char) :=
  if lowerChars (l.take 4) = ('t' :: 'i' :: 'd' :: [':']) then
    let rest := (l.drop 4).dropWhile isPySpace
    match hmAt rest with
    | some (hm, r) =>
      match timeRangeTail r with
      | some (tr, _) => some (hm ++ tr)
      | none => some hm
    | none => none
  else none

/-- Leftmost scan with an anchored matcher (`re.search`). -/
def scanFor (f : List Char → Option (List Char)) : List Char → Option (List Char)
  | [] => f []
  | l@(_ :: cs) =>
    match f l with
    | some g => some g
    | none => scanFor f cs

/-- Python `g.replace('.', ':')`. -/
def dotsToColons (l : List Char) : List Char := l.map (fun c => if c = '.' then ':' else c)

/-- Model of `extract_time_only(time_str)`. -/
def extract_time_only (t : Option String) : String :=
  match t with
  | none => "N/A"
  | some s0 =>
    if s0 = "" then "N/A"
    else
      let s := stripChars s0.data
      match scanFor dtTimeAt s with
      | some g => String.mk (dotsToColons g)
      | none =>
        match scanFor tidAt s with
        | some g => String.mk (dotsToColons g)
        | none =>
          -- pattern 3: `^(\d{1,2}[:.]\d{2}(?:\s*-\s*\d{1,2}[:.]\d{2})?)$`
          let p3 : Option (List Char) :=
            match hmAt s with
            | some (hm, r) =>
              match timeRangeTail r with
              | some (tr, r2) => if r2 = [] then some (hm ++ tr) else none
              | none => if r = [] then some hm else none
            | none => none
          match p3 with
          | some g => String.mk (dotsToColons g)
          | none => String.mk s

example : extract_time_only (some ("2025-12-26 10:30")) = "10:30" := by decide
example : extract_time_only (some ("10.30")) = "10:30" := by decide
example : extract_time_only (some ("Tid: 14:00-15:00")) = "14:00-15:00" := by decide
example : extract_time_only none = "N/A" := by decide
example : extract_time_only (some ("whenever")) = "whenever" := by decide
example : extract_time_only (some ("2025-12-26 10:305")) = "10:30" := by decide
example : extract_time_only (some ("10:305")) = "10:305" := by decide
example : extract_time_only (some ("2025-12-26T08:00:30")) = "08:00:30" := by decide
example : extract_time_only (some ("tid:  7:45 -  8:15")) = "7:45 -  8:15" := by decide

/-! ## Normalizer: `detect_cancelled_status` -/

/-- Model of `detect_cancelled_status(event_name, description, status_text)`. -/
def detect_cancelled_status (eventName description statusText : String) : String :=
  let combined := lowerChars (eventName.data ++ ' ' :: (description.data ++ ' ' :: statusText.data))
  let cancelledKw : List String :=
    ["inställt", "inställd", "cancelled", "canceled", "avlyst", "avlyser", "ställs in", "avbokat"]
  let fullbokatKw : List String :=
    ["fullbokat", "fullbokad", "fully booked", "sold out", "slutsålt"]
  if cancelledKw.any (fun k => containsL k.data combined) then "cancelled"
  else if fullbokatKw.any (fun k => containsL k.data combined) then "fullbokat"
  else "scheduled"

example : detect_cancelled_status "INSTÄLLT: Babyrytmik" "" "" = "cancelled" := by decide
example : detect_cancelled_status "Jul" "Fullbokat" "" = "fullbokat" := by decide
example : detect_cancelled_status "Jul" "" "" = "scheduled" := by decide

/-! ## Normalizer: target groups

`simple_normalize` checks its keyword sets first and only then the age
regex `(\d{1,2})(?:[-–\s]+(\d{1,2}))?\s*(?:år|year|age)`;
`extract_target_from_name` runs three age regexes over the event name and
then its own keyword checks; `classifyTargetGroup` is the resolution ladder
of `MultiSiteEventSpider.parse` (universal_spider.py lines 1400-1423). -/

/-- Separator class `[-–\s]` of the `simple_normalize` age regex. -/
def isAgeSep (c : Char) : Bool := c = '-' ∨ c = '–' ∨ isPySpace c

/-- Literal tail `\s*(?:år|year|age)`. -/
def ageSuffix (l : List Char) : Bool :=
  let t := l.dropWhile isPySpace
  startsWithL ("år").data t ∨ startsWithL ("year").data t ∨ startsWithL ("age").data t

/-- Try `(\d{1,2})(?:[-–\s]+(\d{1,2}))?\s*(?:år|year|age)` anchored at the
head; returns group 1 (`min_age`).  Digit runs longer than two characters
fail at this position for every greedy choice (the next character is a
digit, matching neither the separator class nor the literals). -/
def ageMatchAt (l : List Char) : Option Nat :=
  let r := l.takeWhile isDigitChar
  if r.length = 0 ∨ 2 < r.length then none
  else
    let g1 := digitsVal r
    let rest := l.drop r.length
    let withOpt : Bool :=
      let seps := rest.takeWhile isAgeSep
      if seps = [] then false
      else
        let after := rest.drop seps.length
        let r2 := after.takeWhile isDigitChar
        if r2.length = 0 ∨ 2 < r2.length then false
        else ageSuffix (after.drop r2.length)
    if withOpt then some g1
    else if ageSuffix rest then some g1
    else none

/-- Leftmost search for the `simple_normalize` age regex. -/
def findAge : List Char → Option Nat
  | [] => none
  | l@(_ :: cs) =>
    match ageMatchAt l with
    | some g => some g
    | none => findAge cs

/-- The two keyword groups mapping to `children` in `simple_normalize`. -/
def kwChildren (t : List Char) : Bool :=
  containsL ("barn").data t || containsL ("kid").data t || containsL ("bebis").data t
    || containsL ("småbarn").data t || containsL ("förskola").data t
    || containsL ("for children").data t || containsL ("för barn").data t

def kwTeens (t : List Char) : Bool :=
  containsL ("ungdom").data t || containsL ("teen").data t
    || containsL ("tonåring").data t || containsL ("unga").data t

def kwFamilies (t : List Char) : Bool :=
  containsL ("familj").data t || containsL ("family").data t

def kwAdults (t : List Char) : Bool :=
  containsL ("vuxen").data t || containsL ("vuxna").data t
    || containsL ("adult").data t || containsL ("senior").data t

def kwAllAges (t : List Char) : Bool :=
  containsL ("all").data t || containsL ("alla").data t || containsL ("general").data t

/-- Model of `MultiSiteEventSpider.simple_normalize(target_str)`: keyword
checks first, the age regex only afterwards. -/
def simple_normalize (targetStr : String) : String :=
  if targetStr = "" then "all_ages"
  else
    let t := lowerChars targetStr.data
    if kwChildren t then "children"
    else if kwTeens t then "teens"
    else if kwFamilies t then "families"
    else if kwAdults t then "adults"
    else if kwAllAges t then "all_ages"
    else
      match findAge t with
      | some minAge =>
        if minAge < 13 then "children"
        else if minAge < 20 then "teens"
        else "adults"
      | none => "all_ages"

example : simple_normalize "" = "all_ages" := by decide
example : simple_normalize "All" = "all_ages" := by decide
example : simple_normalize "Barnvagnsbio" = "children" := by decide
example : simple_normalize "10-12 år" = "children" := by decide
example : simple_normalize "Från 15 år" = "teens" := by decide
example : simple_normalize "20 år" = "adults" := by decide
example : simple_normalize "vuxna 3-6 år" = "adults" := by decide
example : simple_normalize "123 år" = "adults" := by decide
example : simple_normalize "3-123 år" = "adults" := by decide

/-- Try `(\d+)[-–]?(\d+)?\s*månader?` anchored at the head (only the
existence of a match is used by the source). -/
def monthsAt (l : List Char) : Bool :=
  let r := l.takeWhile isDigitChar
  if r = [] then false
  else
    let rest := l.drop r.length
    let rest2 :=
      match rest with
      | c :: cs => if c = '-' ∨ c = '–' then cs.drop ((cs.takeWhile isDigitChar).length) else rest
      | [] => rest
    startsWithL ("månade").data (rest2.dropWhile isPySpace)

def monthsSearch : List Char → Bool
  | [] => false
  | l@(_ :: cs) => monthsAt l ∨ monthsSearch cs

/-- Try `(\d+)[-–](\d+)\s*år` anchored at the head; returns
`(min_age, max_age)`.  (The optional `(?:för\s+)?` prefix of the source
regex never changes the captured groups of the leftmost match.) -/
def ageRangeAt (l : List Char) : Option (Nat × Nat) :=
  let r1 := l.takeWhile isDigitChar
  if r1 = [] then none
  else
    match l.drop r1.length with
    | c :: rest =>
      if c = '-' ∨ c = '–' then
        let r2 := rest.takeWhile isDigitChar
        if r2 = [] then none
        else if startsWithL ("år").data ((rest.drop r2.length).dropWhile isPySpace) then
          some (digitsVal r1, digitsVal r2)
        else none
      else none
    | [] => none

def ageRangeSearch : List Char → Option (Nat × Nat)
  | [] => none
  | l@(_ :: cs) =>
    match ageRangeAt l with
    | some g => some g
    | none => ageRangeSearch cs

/-- Try `(?:för|från)\s+(\d+)\s*år(?:\s*och\s*upp|\s*uppåt|\s*\+)?` anchored
at the head; returns `min_age` (the optional tail never affects group 1). -/
def ageMinAt (l : List Char) : Option Nat :=
  let core := fun (rest : List Char) =>
    let sp := rest.takeWhile isPySpace
    if sp = [] then none
    else
      let after := rest.drop sp.length
      let r := after.takeWhile isDigitChar
      if r = [] then none
      else if startsWithL ("år").data ((after.drop r.length).dropWhile isPySpace) then
        some (digitsVal r)
      else none
  if startsWithL ("för").data l then
    match core (l.drop 3) with
    | some g => some g
    | none => if startsWithL ("från").data l then core (l.drop 4) else none
  else if startsWithL ("från").data l then core (l.drop 4)
  else none

def ageMinSearch : List Char → Option Nat
  | [] => none
  | l@(_ :: cs) =>
    match ageMinAt l with
    | some g => some g
    | none => ageMinSearch cs

/-- Decimal rendering of a number as a `String` piece. -/
def natStr (n : Nat) : String := String.mk (natDigits n)

/-- Model of `extract_target_from_name(event_name)`: returns
`(target_group_display, target_group_normalized)` or `none`. -/
def extract_target_from_name (eventName : String) : Option (String × String) :=
  if eventName = "" then none
  else
    let t := lowerChars eventName.data
    let has := fun (k : String) => containsL k.data t
    if (has ("månader") ∨ has ("mån")) ∧ monthsSearch t then
      some ("Babies (0-12 months)", "babies")
    else
      match ageRangeSearch t with
      | some (mn, mx) =>
        if mx ≤ 6 then
          some ("Children (" ++ natStr mn ++ "-" ++ natStr mx ++ " years)", "children")
        else if mn ≤ 12 then
          some ("Children (" ++ natStr mn ++ "-" ++ natStr mx ++ " years)", "children")
        else if mn < 18 then
          some ("Teens (" ++ natStr mn ++ "-" ++ natStr mx ++ " years)", "teens")
        else some ("Adults (" ++ natStr mn ++ "+ years)", "adults")
      | none =>
        match ageMinSearch t with
        | some mn =>
          if mn ≤ 6 then some ("Children (" ++ natStr mn ++ "+ years)", "children")
          else if mn ≤ 12 then some ("Children (" ++ natStr mn ++ "+ years)", "children")
          else if mn < 18 then some ("Teens (" ++ natStr mn ++ "+ years)", "teens")
          else some ("Adults (" ++ natStr mn ++ "+ years)", "adults")
        | none =>
          if has ("familj") ∨ has ("family") then some ("Families", "families")
          else if has ("baby") ∨ has ("bebis") then some ("Babies", "babies")
          else none

example : extract_target_from_name "Sagostund för 3-6 år" =
    some ("Children (3-6 years)", "children") := by decide
example : extract_target_from_name "Rytmik 4-12 månader" =
    some ("Babies (0-12 months)", "babies") := by decide
example : extract_target_from_name "Filmkväll" = none := by decide
example : extract_target_from_name "för 15 år och upp" =
    some ("Teens (15+ years)", "teens") := by decide
example : extract_target_from_name "18-25 år" =
    some ("Adults (18+ years)", "adults") := by decide
example : extract_target_from_name "Rauschenberg 100 år" = none := by decide
example : extract_target_from_name "månadens bok" = none := by decide

/-- The value normalised in the `Målgrupp` branch: text after the first
colon, else the text with the literal `Målgrupp` removed, stripped. -/
def malgruppValue (raw : String) : String :=
  if containsL [':'] raw.data then
    String.mk (stripChars ((raw.data.dropWhile (fun c => c ≠ ':')).drop 1))
  else
    String.mk (stripChars (removeAllL ("Målgrupp").data raw.data))

/-- Model of the target-group resolution ladder of
`MultiSiteEventSpider.parse` (lines 1400-1423): returns the normalized
target group of the emitted item.  `url` is the listing URL, `rawTarget` the
`target_group_raw` field (empty when absent), `aiTarget` the fallback
`target_group` field (the source defaults it to "All" when missing). -/
def classifyTargetGroup (url rawTarget eventName aiTarget : String) : String :=
  if containsL ("forskolor").data url.data then "preschool_groups"
  else if rawTarget ≠ "" ∧ containsL ("målgrupp").data (lowerChars rawTarget.data) then
    simple_normalize (malgruppValue rawTarget)
  else
    match extract_target_from_name eventName with
    | some p => p.2
    | none => simple_normalize aiTarget

example : classifyTargetGroup "https://biblioteket.stockholm.se/forskolor" "" "X" "All"
    = "preschool_groups" := by decide
example : classifyTargetGroup "https://e.org/x" "Målgrupp: vuxna 3-6 år" "X" "All"
    = "adults" := by decide
example : classifyTargetGroup "https://e.org/x" "" "Sagostund för 3-6 år" "All"
    = "children" := by decide
example : classifyTargetGroup "https://e.org/x" "" "X" "All" = "all_ages" := by decide

/-! ## Normalizer: `extract_location_from_title`

The four marker patterns `\b<marker>\s+([A-ZÅÄÖ][\w\s]+?)(?:\s*[-–]|$)` run
with IGNORECASE (so the class `[A-ZÅÄÖ]` also accepts the lowercase
letters), then the keyword fallback. -/

/-- First character class `[A-ZÅÄÖ]` under IGNORECASE. -/
def isLocStart (c : Char) : Bool :=
  (65 ≤ c.toNat ∧ c.toNat ≤ 90) ∨ (97 ≤ c.toNat ∧ c.toNat ≤ 122)
    ∨ c = 'Å' ∨ c = 'Ä' ∨ c = 'Ö' ∨ c = 'å' ∨ c = 'ä' ∨ c = 'ö'

def isWordSp (c : Char) : Bool := isWordChar c ∨ isPySpace c

def isDashChar (c : Char) : Bool := c = '-' ∨ c = '–'

/-- The lazy group `[\w\s]+?` followed by the terminator `(?:\s*[-–]|$)`:
grow the group one character at a time, testing the terminator first.
`acc` holds the group so far (reversed) and is non-empty on entry. -/
def lazyLocGroup (fuel : Nat) (acc : List Char) (rest : List Char) : Option (List Char) :=
  match fuel with
  | 0 => none
  | fuel + 1 =>
    if rest = [] ∨ ((rest.dropWhile isPySpace).head?.any isDashChar) then some acc.reverse
    else
      match rest with
      | c :: cs => if isWordSp c then lazyLocGroup fuel (c :: acc) cs else none
      | [] => some acc.reverse

/-- Try `\b<marker>\s+(group)` anchored at the head (`prevW` gives the left
word-boundary context); returns the captured group. -/
def locMarkerAt (marker : List Char) (prevW : Bool) (l : List Char) : Option (List Char) :=
  if ¬ prevW ∧ startsWithL marker (lowerChars (l.take marker.length)) = true then
    let rest := l.drop marker.length
    let sp := rest.takeWhile isPySpace
    if sp = [] then none
    else
      match rest.drop sp.length with
      | c :: cs => if isLocStart c then lazyLocGroup (cs.length + 1) [c] cs else none
      | [] => none
  else none

/-- Leftmost search for a marker pattern. -/
def locSearchAux (marker : List Char) : Bool → List Char → Option (List Char)
  | _, [] => none
  | prevW, l@(c :: cs) =>
    match locMarkerAt marker prevW l with
    | some g => some g
    | none => locSearchAux marker (isWordChar c) cs

def locSearch (marker : String) (l : List Char) : Option (List Char) :=
  locSearchAux marker.data false l

/-- One `if match and len > 2` step of `extract_location_from_title`. -/
def locTry (marker : String) (t : List Char) : Option String :=
  match locSearch marker t with
  | some g =>
    let loc := stripChars g
    if 2 < loc.length then some (String.mk loc) else none
  | none => none

/-- Model of `extract_location_from_title(event_title)`. -/
def extract_location_from_title (title : String) : String :=
  if title = "" then "Skansen"
  else
    let t := stripChars title.data
    match locTry ("at") t with
    | some loc => loc
    | none =>
      match locTry ("in") t with
      | some loc => loc
      | none =>
        match locTry ("i") t with
        | some loc => loc
        | none =>
          match locTry ("på") t with
          | some loc => loc
          | none =>
            let kws : List String :=
              ["farmstead", "church", "kyrka", "gård", "torg", "stage", "hall", "house", "hus"]
            if kws.any (fun k => containsL k.data (lowerChars t)) then String.mk t
            else "Skansen"

example : extract_location_from_title "Food and beverages at Bollnästorget" =
    "Bollnästorget" := by decide
example : extract_location_from_title "Delsbo Farmstead" = "Delsbo Farmstead" := by decide
example : extract_location_from_title "Yoga" = "Skansen" := by decide
example : extract_location_from_title "Christmas concerts in Seglora Church" =
    "Seglora Church" := by decide
example : extract_location_from_title "Dans på Tingsvallen - extra" =
    "Tingsvallen" := by decide

/-! ## The Skansen day-stepping branch of `MultiSiteEventSpider.parse`

The page interaction is abstracted into the input: one `(date_text, items)`
pair per day shown, where `date_text` is the inner text of the calendar
date dropdown and `items` the per-day extraction results. -/

/-- One extracted raw item of the Skansen listing. -/
structure SkItem where
  event_name : String
  event_url : Option String
  time : Option String
  description : Option String
  target_group : Option String
deriving DecidableEq, Repr

/-- One buffered event (`event_buffer[event_name]`). -/
structure BufEntry where
  event_name : String
  event_url : String
  time : String
  description : String
  location : String
  target_group : String
  target_group_normalized : String
  status : String
  booking_info : String
  dates : List String
deriving DecidableEq, Repr

/-- The item yielded by the consolidation block (the fields set on
`EventCategoryItem` in lines 575-592). -/
structure SkansenOut where
  event_name : String
  event_url : String
  time : String
  description : String
  location : String
  target_group : String
  target_group_normalized : String
  status : String
  date_iso : String
  date : String
  end_date_iso : String
deriving DecidableEq, Repr

/-- Fragment of `urllib.parse.urljoin(base, url)` for the cases the branch
meets: an absolute URL wins; a root-relative path replaces the base path;
anything else replaces the last segment of the base path. -/
def urljoin (base url : String) : String :=
  if containsL (("://").data) url.data then url
  else
    match afterScheme base.data with
    | some rest =>
      let netloc := rest.takeWhile (fun c => c ≠ '/')
      let scheme := base.data.take (base.data.length - rest.length)
      match url.data with
      | '/' :: _ => String.mk (scheme ++ netloc ++ url.data)
      | _ =>
        let path := rest.drop netloc.length
        let upToSlash := (path.reverse.dropWhile (fun c => c ≠ '/')).reverse
        String.mk (scheme ++ netloc ++ upToSlash ++ url.data)
    | none => url

/-- Buffering one extracted item for day `day` (lines 445-477; the DB
selector path). -/
def skansenAddItem (responseUrl : String) (day : String) (buf : List BufEntry)
    (it : SkItem) : List BufEntry :=
  if it.event_name = "" then buf
  else if buf.any (fun b => b.event_name = it.event_name) then
    buf.map (fun b =>
      if b.event_name = it.event_name then { b with dates := b.dates ++ [day] } else b)
  else
    let eventUrl :=
      match it.event_url with
      | some r => if r = "" then responseUrl else urljoin responseUrl r
      | none => responseUrl
    let tgCleaned :=
      match it.target_group with
      | some tg =>
        if tg = "" then "All"
        else String.mk (tg.data.flatMap (fun c => if c = '\n' then [',', ' '] else [c]))
      | none => "All"
    buf ++ [{ event_name := it.event_name
              event_url := eventUrl
              time := extract_time_only it.time
              description := (it.description.getD ("N/A"))
              location := extract_location_from_title it.event_name
              target_group := tgCleaned
              target_group_normalized := simple_normalize tgCleaned
              status := detect_cancelled_status it.event_name (it.description.getD "") ""
              booking_info := "N/A"
              dates := [day] }]

/-- Cleaning of the dropdown text before `parse_swedish_date`
(lines 417-425): strip the `Select date:` prefix, then keep the part after
the first comma. -/
def skansenDayText (raw : String) : String :=
  let t := stripChars (removeAllL ("Select date:").data raw.data)
  if containsL [','] t then
    String.mk (stripChars ((t.dropWhile (fun c => c ≠ ',')).drop 1))
  else String.mk t

/-- The 30-iteration day loop (lines 412-560): parse each day's date text,
stop on the first unparseable one, and buffer that day's items. -/
def skansenLoop (ty tm td : Nat) (responseUrl : String)
    (days : List (String × List SkItem)) : List BufEntry :=
  let rec go (buf : List BufEntry) : List (String × List SkItem) → List BufEntry
    | [] => buf
    | (raw, items) :: rest =>
      match parse_swedish_date ty tm td (skansenDayText raw) with
      | none => buf
      | some d => go (items.foldl (skansenAddItem responseUrl d) buf) rest
  go [] (days.take 30)

/-- Model of the whole Skansen branch: after the loop the source closes the
page and returns (lines 566-567) before the consolidation block at lines
569-598 is reached, so no item is ever yielded. -/
def skansenBranch (ty tm td : Nat) (responseUrl : String)
    (days : List (String × List SkItem)) : List SkansenOut :=
  let _buffer := skansenLoop ty tm td responseUrl days
  []

/-- Model of the unreachable consolidation block (lines 569-595): one item
per buffered name, `date_iso` = first date of the sorted date list,
`end_date_iso` = last date when there are at least two, else `N/A`. -/
def skansenConsolidation (buf : List BufEntry) : List SkansenOut :=
  buf.map (fun b =>
    let dates := (b.dates.insertionSort (fun a c => strLe a c = true))
    { event_name := b.event_name
      event_url := b.event_url
      time := b.time
      description := b.description
      location := b.location
      target_group := b.target_group
      target_group_normalized := b.target_group_normalized
      status := b.status
      date_iso := dates.headI
      date := dates.headI
      end_date_iso := if 1 < dates.length then dates.getLastI else "N/A" })

/-! ## Spec-side definitions

These follow the words of the specification (not the source); they exist
only to be compared with the source-derived definitions above. -/

/-- Glob matching where `*` matches any substring (spec §4.2). -/
def globMatchAux : Nat → List Char → List Char → Bool
  | 0, p, s => p = [] && s = []
  | _ + 1, [], s => s = []
  | fuel + 1, '*' :: ps, s =>
    globMatchAux fuel ps s
      || (match s with
          | [] => false
          | _ :: s2 => globMatchAux fuel ('*' :: ps) s2)
  | fuel + 1, p :: ps, c :: cs => p == c && globMatchAux fuel ps cs
  | _ + 1, _ :: _, [] => false

def globMatch (p s : String) : Bool :=
  globMatchAux (p.data.length + s.data.length + 1) p.data s.data

/-- First row with the longest `url_pattern` among a candidate list. -/
def chooseLongest (l : List SelRow) : Option SelRow :=
  l.foldl (fun acc r =>
    match acc with
    | none => some r
    | some b => if b.urlPattern.length < r.urlPattern.length then some r else acc) none

/-- Modelled from the spec (§4.2 `get(url)`): "return the bundle whose
`(domain, url_pattern)` has the longest pattern that matches `path` (glob
semantics where `*` matches any substring).  Falls back to domain-only
match if present.  Returns null if none." -/
def specGetSelectors (store : List SelRow) (url : String) : Option SelBundle :=
  let np := urlNetlocPath url
  let domain := stripWww np.1
  let path := rstripSlash np.2
  let candidates := store.filter (fun r => r.domain = domain ∧ globMatch r.urlPattern path)
  let row :=
    match chooseLongest candidates with
    | some r => some r
    | none => store.find? (fun r => r.domain = domain)
  row.map (fun r => { container := r.container, items := r.items.getD [] })

/-- Modelled from the claim C8 / spec §4.1 `classify_target_group`: the
resolution order stated there — (1) preschool source hint, (2) age-range
regex over the raw text or the event name mapped by the stated thresholds,
(3) keyword sets, (4) default `all_ages`. -/
def specClassifyTargetGroup (url rawTarget eventName aiTarget : String) : String :=
  if containsL ("forskolor").data url.data then "preschool_groups"
  else
    let raw := lowerChars rawTarget.data
    let name := lowerChars eventName.data
    let ai := lowerChars aiTarget.data
    if monthsSearch raw ∨ monthsSearch name then "babies"
    else
      match (match ageRangeSearch raw with
             | some p => some p
             | none => ageRangeSearch name) with
      | some (mn, mx) =>
        if mx ≤ 12 then "children"
        else if 13 ≤ mn ∧ mn ≤ 19 then "teens"
        else if 18 ≤ mn then "adults"
        else "children"
      | none =>
        match (match ageMinSearch raw with
               | some p => some p
               | none => ageMinSearch name) with
        | some mn =>
          if mn ≤ 12 then "children"
          else if 13 ≤ mn ∧ mn ≤ 19 then "teens"
          else "adults"
        | none =>
          let texts := [raw, name, ai]
          let has := fun (k : String) => texts.any (fun t => containsL k.data t)
          if has ("barn") ∨ has ("bebis") ∨ has ("småbarn") ∨ has ("förskola")
              ∨ has ("for children") ∨ has ("för barn") then "children"
          else if has ("ungdom") ∨ has ("teen") ∨ has ("tonåring") ∨ has ("unga") then "teens"
          else if has ("familj") ∨ has ("family") then "families"
          else if has ("vuxen") ∨ has ("vuxna") ∨ has ("adult") ∨ has ("senior") then "adults"
          else if has ("alla") ∨ has ("all ages") ∨ has ("general") then "all_ages"
          else "all_ages"

/-- The behaviour `get_selectors` actually implements, written in the
spec's style (filter + first): exact match on `(domain, path)` or
`(domain, path + '/')`, else the first stored row for the domain, with the
bundle returned only when the row has a selector map. -/
def amendedGetSelectors (store : List SelRow) (url : String) : Option SelBundle :=
  let np := urlNetlocPath url
  let domain := stripWww np.1
  let path := rstripSlash np.2
  let exact := (store.filter (fun r => r.domain = domain
      ∧ (r.urlPattern = path ∨ r.urlPattern = path ++ "/"))).head?
  let fallback := (store.filter (fun r => r.domain = domain)).head?
  match (match exact with | some r => some r | none => fallback) with
  | some r =>
    match r.items with
    | some its => some { container := r.container, items := its }
    | none => none
  | none => none

/-! ## Concrete instances used by witnesses and counterexamples -/

/-- 2025-06-01 as an ordinal, the reference "today" of the examples. -/
def day0 : Nat := toOrdinal 2025 6 1

/-- A stored single-day event (no end date). -/
def evSingle : EventRow :=
  { event_name := "Sagostund", date_iso := "2025-06-10", event_url := "https://e.org/a"
    end_date_iso := none, time := some ("10:00"), location := some ("Biblioteket")
    target_group := some ("children"), status := some ("scheduled"), booking_info := none
    description := none, last_scraped := 0 }

/-- A stored multi-day event: 2025-06-05 through 2025-06-08. -/
def evMulti : EventRow :=
  { evSingle with date_iso := "2025-06-05", end_date_iso := some ("2025-06-08") }

/-- A stored long event: 2025-06-01 through 2025-06-21 (spills past the
This-Week window when expanded). -/
def evLong : EventRow :=
  { evSingle with date_iso := "2025-06-01", end_date_iso := some ("2025-06-21") }

/-- A This-Week query, first page of twenty. -/
def qWeek : FilterQuery :=
  { search := "", venue := "All Venues", dateRange := "This Week", targetGroups := []
    source := "All Sources", page := 1, perPage := 20, filterDate := none }

/-- The scraped data whose upsert is exercised in the C2 witness context. -/
def edSample : EventData :=
  { event_name := "Sagostund", date_iso := "2025-06-10", event_url := "https://e.org/a"
    end_date_iso := some ("N/A"), time := some ("10:00"), location := some ("Biblioteket")
    target_group_normalized := some ("children"), status := some ("scheduled")
    booking_info := some ("Drop-in"), description := some ("Sagor") }

/-- Two selector rows for one domain: the fallback row first, a starred
pattern second. -/
def selRowOther : SelRow :=
  { domain := "example.org", urlPattern := "/other", container := some ("div.other")
    items := some [("event_name", ".o")] }

def selRowStar : SelRow :=
  { domain := "example.org", urlPattern := "/ev*", container := some ("div.star")
    items := some [("event_name", ".s")] }

def selStore5 : List SelRow := [selRowOther, selRowStar]

def url5 : String := "https://www.example.org/events"

/-- An AI bundle with four provided field selectors (two of which match)
and a non-empty container. -/
def sels4 : AISelectors :=
  { container := some ("div.card")
    items := [("event_name", ItemCfg.plain ".a"), ("date_iso", ItemCfg.plain ".b"),
              ("time", ItemCfg.plain ".c"), ("location", ItemCfg.obj (some ".d"))] }

/-- Match counts for `sels4`: only `.a` and `.b` resolve in the page. -/
def cnt4 (s : String) : Nat := if s = ".a" ∨ s = ".b" then 1 else 0

/-- A successful discovery outcome whose overall confidence is 0.5. -/
def outcome4 : DiscoveryOutcome :=
  { success := true, selectors := sels4, confidence := 1/2 }

/-- One Skansen listing item, seen on two consecutive days. -/
def skItem6 : SkItem :=
  { event_name := "Yoga", event_url := some ("https://www.skansen.se/en/yoga")
    time := none, description := none, target_group := none }

def skDays6 : List (String × List SkItem) :=
  [("Select date: Today, 24 December 2025", [skItem6]),
   ("25 December 2025", [skItem6])]

def skUrl6 : String := "https://www.skansen.se/en/calendar/"

/-- The item the consolidation block would yield for `skDays6`. -/
def skOut6 : SkansenOut :=
  { event_name := "Yoga", event_url := "https://www.skansen.se/en/yoga", time := "N/A"
    description := "N/A", location := "Skansen", target_group := "All"
    target_group_normalized := "all_ages", status := "scheduled"
    date_iso := "2025-12-24", date := "2025-12-24", end_date_iso := "2025-12-25" }

/-! # Theorems -/

/-! ## C2 — upsert idempotence -/

theorem rowKey_rowOfData (e : EventData) (t : Nat) : rowKey (rowOfData e t) = dataKey e := rfl

theorem eraseTs_rowOfData (e : EventData) (t : Nat) : eraseTs (rowOfData e t) = rowOfData e 0 := rfl

theorem upsert_upsert_eraseTs (store : List EventRow) (e : EventData) (t1 t2 : Nat) :
    (upsert_event (upsert_event store e t1) e t2).map eraseTs
      = (upsert_event store e t1).map eraseTs := by
  induction store with
  | nil => simp [upsert_event, rowKey_rowOfData, eraseTs_rowOfData]
  | cons r rs ih =>
    by_cases h : rowKey r = dataKey e
    · simp [upsert_event, h, rowKey_rowOfData, eraseTs_rowOfData]
    · simp [upsert_event, h, ih]

theorem upsert_find (store : List EventRow) (e : EventData) (t : Nat) :
    (upsert_event store e t).find? (fun r => rowKey r = dataKey e) = some (rowOfData e t) := by
  induction store with
  | nil => simp [upsert_event, rowKey_rowOfData]
  | cons r rs ih =>
    by_cases h : rowKey r = dataKey e
    · simp [upsert_event, h, rowKey_rowOfData]
    · simp [upsert_event, h, ih]

theorem upsert_length (store : List EventRow) (e : EventData) (t : Nat) :
    (upsert_event store e t).length = store.length
      ∨ (upsert_event store e t).length = store.length + 1 := by
  induction store with
  | nil => simp [upsert_event]
  | cons r rs ih =>
    by_cases h : rowKey r = dataKey e
    · simp [upsert_event, h]
    · rcases ih with ih | ih <;> simp [upsert_event, h, ih]

/-- C2: upserting the same event twice leaves the store in the same state as
upserting it once, except for `last_scraped`; the operation is a total
insert-or-replace keyed by `(event_name, date_iso, event_url)` (the row
count grows by at most one) that overwrites every non-identity field with
the new values. -/
theorem upsert_event_idempotent_insert_or_replace :
    ∀ (store : List EventRow) (e : EventData) (t1 t2 : Nat),
      (upsert_event (upsert_event store e t1) e t2).map eraseTs
          = (upsert_event store e t1).map eraseTs
      ∧ (upsert_event store e t1).find? (fun r => rowKey r = dataKey e)
          = some (rowOfData e t1)
      ∧ ((upsert_event store e t1).length = store.length
          ∨ (upsert_event store e t1).length = store.length + 1) :=
  fun store e t1 t2 =>
    ⟨upsert_upsert_eraseTs store e t1 t2, upsert_find store e t1, upsert_length store e t1⟩

/-! ## C10 — expansion leaves unexpandable rows unchanged -/

/-- C10: `_expand_event_across_days` returns the stored record unchanged —
keeping its original `end_date_iso` — whenever the end date is absent or
`'N/A'` or parses to the same day as `date_iso`, and returns the single
original record instead of raising whenever either date string fails to
parse. -/
theorem expand_event_preserves_unexpandable :
    ∀ (today : Nat) (ev : EventRow) (fd : Option String),
      (ev.end_date_iso = none → expand_event_across_days today ev fd = [ev])
      ∧ (ev.end_date_iso = some ("N/A") → expand_event_across_days today ev fd = [ev])
      ∧ (parseIso ev.date_iso = none → expand_event_across_days today ev fd = [ev])
      ∧ (∀ es, ev.end_date_iso = some es → parseIso es = none →
          expand_event_across_days today ev fd = [ev])
      ∧ (∀ s es, parseIso ev.date_iso = some s → ev.end_date_iso = some es →
          parseIso es = some s → expand_event_across_days today ev fd = [ev]) := by
  intro today ev fd
  refine ⟨?_, ?_, ?_, ?_, ?_⟩
  · intro h
    by_cases he : ev.date_iso = ""
    · simp [expand_event_across_days, he]
    · cases hp : parseIso ev.date_iso <;> simp [expand_event_across_days, he, hp, h]
  · intro h
    by_cases he : ev.date_iso = ""
    · simp [expand_event_across_days, he]
    · cases hp : parseIso ev.date_iso <;> simp [expand_event_across_days, he, hp, h]
  · intro h
    by_cases he : ev.date_iso = ""
    · simp [expand_event_across_days, he]
    · simp [expand_event_across_days, he, h]
  · intro es hend hes
    by_cases he : ev.date_iso = ""
    · simp [expand_event_across_days, he]
    · cases hp : parseIso ev.date_iso
      · simp [expand_event_across_days, he, hp]
      · by_cases hna : es = "" ∨ es = "N/A"
        · simp [expand_event_across_days, he, hp, hend, hna]
        · simp [expand_event_across_days, he, hp, hend, hna, hes]
  · intro s es hs hend hes
    have hemp : parseIso "" = none := by decide
    have hna' : parseIso ("N/A") = none := by decide
    have he : ev.date_iso ≠ "" := by
      intro h
      rw [h, hemp] at hs
      cases hs
    by_cases hna : es = "" ∨ es = "N/A"
    · rcases hna with h | h <;> rw [h] at hes
      · rw [hemp] at hes; cases hes
      · rw [hna'] at hes; cases hes
    · simp [expand_event_across_days, he, hs, hend, hna, hes]

/-- Witness for C10 at a concrete event whose end date is `'N/A'`. -/
theorem expand_event_preserves_unexpandable_witness :
    expand_event_across_days day0 { evSingle with end_date_iso := some ("N/A") } none
      = [{ evSingle with end_date_iso := some ("N/A") }] :=
  (expand_event_preserves_unexpandable day0 _ none).2.1 rfl

/-! ## C1 — multi-day expansion -/

theorem expandIter_none (ev : EventRow) :
    ∀ (k cur : Nat), expandIter ev none cur k
      = some ((List.range k).map (fun i => setDayCopy ev (cur + i))) := by
  intro k
  induction k with
  | zero => intro cur; rfl
  | succ n ih =>
    intro cur
    have harith : ∀ i : Nat, cur + 1 + i = cur + (i + 1) := by omega
    rw [List.range_succ_eq_map]
    simp only [expandIter, ih (cur + 1), List.map_cons, List.map_map, Function.comp_def,
      Nat.add_zero, harith]

theorem expandIter_filter (ev : EventRow) (fs : String) (fd : Nat)
    (hf : parseIso fs = some fd) :
    ∀ (k cur : Nat), expandIter ev (some fs) cur k
      = some (if cur ≤ fd ∧ fd < cur + k then [setDayCopy ev fd] else []) := by
  intro k
  induction k with
  | zero =>
    intro cur
    simp only [expandIter]
    rw [if_neg (by omega)]
  | succ n ih =>
    intro cur
    by_cases h : cur = fd
    · subst h
      have hc : cur ≤ cur ∧ cur < cur + (n + 1) := by omega
      simp [expandIter, hf, hc]
    · simp only [expandIter, hf, if_neg h, ih (cur + 1)]
      have : (cur + 1 ≤ fd ∧ fd < cur + 1 + n) ↔ (cur ≤ fd ∧ fd < cur + (n + 1)) := by omega
      rw [if_congr this rfl rfl]

theorem expand_unfold (today : Nat) (ev : EventRow) (s e : Nat) (es : String)
    (hs : parseIso ev.date_iso = some s) (hend : ev.end_date_iso = some es)
    (hes : parseIso es = some e) (hne : s ≠ e) (fd : Option String) :
    expand_event_across_days today ev fd
      = match expandIter ev fd (max s today) (min e (today + 30) + 1 - max s today) with
        | some l => l
        | none => [ev] := by
  have hemp : parseIso "" = none := by decide
  have hnaP : parseIso ("N/A") = none := by decide
  have he : ev.date_iso ≠ "" := by
    intro h
    rw [h, hemp] at hs
    cases hs
  have hna : ¬ (es = "" ∨ es = "N/A") := by
    rintro (h | h) <;> rw [h] at hes
    · rw [hemp] at hes; cases hes
    · rw [hnaP] at hes; cases hes
  simp [expand_event_across_days, he, hs, hend, hna, hes, hne]

/-- C1: for a stored event whose `end_date_iso` parses to a day strictly
after `date_iso`, filter-time expansion yields one virtual event per day in
the interval `[max(start, today), min(end, today + 30)]`, each virtual copy
carrying `end_date_iso = 'N/A'`; no emitted day ever exceeds `today + 30`;
and with a specific filter date exactly the virtual event of that day (and
nothing else) is emitted, still capped at `today + 30`. -/
theorem expand_event_multiday (today : Nat) (ev : EventRow) (s e : Nat) (es : String)
    (hs : parseIso ev.date_iso = some s) (hend : ev.end_date_iso = some es)
    (hes : parseIso es = some e) (hlt : s < e) :
    expand_event_across_days today ev none
        = (List.range (min e (today + 30) + 1 - max s today)).map
            (fun i => setDayCopy ev (max s today + i))
    ∧ (∀ x ∈ expand_event_across_days today ev none,
        ∃ d, d ≤ today + 30 ∧ x = setDayCopy ev d ∧ x.end_date_iso = some ("N/A"))
    ∧ (∀ fs fd, parseIso fs = some fd →
        expand_event_across_days today ev (some fs)
          = if max s today ≤ fd ∧ fd ≤ min e (today + 30) then [setDayCopy ev fd]
            else []) := by
  have hne : s ≠ e := Nat.ne_of_lt hlt
  have h1 : expand_event_across_days today ev none
      = (List.range (min e (today + 30) + 1 - max s today)).map
          (fun i => setDayCopy ev (max s today + i)) := by
    rw [expand_unfold today ev s e es hs hend hes hne none, expandIter_none ev]
  refine ⟨h1, ?_, ?_⟩
  · intro x hx
    rw [h1] at hx
    obtain ⟨i, hi, rfl⟩ := List.mem_map.mp hx
    have hi' := List.mem_range.mp hi
    exact ⟨max s today + i, by omega, rfl, rfl⟩
  · intro fs fd hf
    rw [expand_unfold today ev s e es hs hend hes hne (some fs),
      expandIter_filter ev fs fd hf]
    have hiff : (max s today ≤ fd ∧ fd < max s today + (min e (today + 30) + 1 - max s today))
        ↔ (max s today ≤ fd ∧ fd ≤ min e (today + 30)) := by omega
    rw [if_congr hiff rfl rfl]

/-- Witness for C1: the multi-day event 2025-06-05 – 2025-06-08 expands to
the four days of its range from today = 2025-06-01. -/
theorem expand_event_multiday_witness :
    expand_event_across_days day0 evMulti none
      = (List.range (min (toOrdinal 2025 6 8) (day0 + 30) + 1 - max (toOrdinal 2025 6 5) day0)).map
          (fun i => setDayCopy evMulti (max (toOrdinal 2025 6 5) day0 + i)) :=
  (expand_event_multiday day0 evMulti (toOrdinal 2025 6 5) (toOrdinal 2025 6 8)
    ("2025-06-08") (by decide) rfl (by decide) (by decide)).1

/-! ## C5 — selector lookup -/

theorem find?_eq_head_filter {α : Type} (p : α → Bool) :
    ∀ l : List α, l.find? p = (l.filter p).head? := by
  intro l
  induction l with
  | nil => rfl
  | cons a l ih =>
    cases h : p a with
    | false => rw [List.find?_cons_of_neg _ (by simp [h]), List.filter_cons_of_neg, ih]; simp [h]
    | true => rw [List.find?_cons_of_pos _ h, List.filter_cons_of_pos h, List.head?_cons]

/-- C5 counterexample: with the fallback row stored before a starred
pattern, `get_selectors` on a URL that the starred pattern glob-matches
returns the domain-fallback bundle, not the glob/longest-pattern bundle the
claim describes. -/
theorem get_selectors_counterexample :
    get_selectors selStore5 url5
        = some { container := some ("div.other"), items := [("event_name", ".o")] }
    ∧ specGetSelectors selStore5 url5
        = some { container := some ("div.star"), items := [("event_name", ".s")] }
    ∧ get_selectors selStore5 url5 ≠ specGetSelectors selStore5 url5 :=
  ⟨by decide, by decide, by decide⟩

/-- C5 amended: `get_selectors` computes `(domain, path.rstrip('/'))` and
returns the first stored bundle whose `(domain, url_pattern)` matches the
path exactly (with or without one trailing slash); there is no glob
matching and no longest-pattern preference.  When no pattern matches it
falls back to the first stored bundle of the domain, and it returns null
when no bundle matches at all (or the matched row has no selector map). -/
theorem get_selectors_exact_match :
    ∀ (store : List SelRow) (url : String),
      get_selectors store url = amendedGetSelectors store url := by
  intro store url
  unfold get_selectors amendedGetSelectors
  simp only [find?_eq_head_filter]

/-! ## C4 — discovery caching -/

/-- C4 counterexample: a successful discovery whose overall confidence is
0.5 — and whose structural validation passes only 2 of the 4 provided
required fields, adjusted confidence 0.5 < 0.6 — is nevertheless written to
the selector store (`saved = True`), because `discover_and_save` caches
whenever `confidence > 0.3`. -/
theorem discover_and_save_counterexample :
    (discover_and_save [] url5 outcome4).1.saved = true
    ∧ (discover_and_save [] url5 outcome4).2 ≠ []
    ∧ (validate_selectors_against_html cnt4 sels4 3).adjusted_confidence < 6/10
    ∧ ¬ ((6 : ℚ)/10 ≤ outcome4.confidence) := by
  have hc : (3 : ℚ)/10 < outcome4.confidence := by norm_num [outcome4]
  have hunf : discover_and_save [] url5 outcome4
      = ({ success := true, saved := (save_selectors_to_db [] url5 outcome4.selectors).1,
           confidence := outcome4.confidence },
         (save_selectors_to_db [] url5 outcome4.selectors).2) := by
    unfold discover_and_save
    rw [if_neg (by decide), if_pos hc]
  have hst : (requiredFields.map (fun f => (f, fieldStatusOf cnt4 sels4.items f)))
      = [("event_name", FieldStatus.pass), ("date_iso", FieldStatus.pass),
         ("time", FieldStatus.fail), ("location", FieldStatus.fail),
         ("description", FieldStatus.notProvided), ("target_group", FieldStatus.notProvided),
         ("status", FieldStatus.notProvided)] := by decide
  have hadj : (validate_selectors_against_html cnt4 sels4 3).adjusted_confidence
      = (2 : ℚ)/4 := by
    unfold validate_selectors_against_html
    simp only [show sels4.container = some ("div.card") from rfl]
    rw [if_neg (by decide : ¬ (("div.card" : String) = "")),
      if_neg (by decide : ¬ ((3 : Nat) = 0))]
    simp only [hst]
    simp [List.filter_cons, List.filter_nil]
  refine ⟨?_, ?_, ?_, ?_⟩
  · rw [hunf]; decide
  · rw [hunf]; decide
  · rw [hadj]; norm_num
  · norm_num [outcome4]

/-- C4 amended: after a successful discovery the bundle is cached if and
only if the discovery-phase overall confidence exceeds 0.3 and the bundle
has a non-empty container selector; the validated field fraction
(`adjusted_confidence`) does not gate caching — it only marks the
validation report invalid exactly when it is below 0.6. -/
theorem discover_and_save_amended :
    ∀ (store : List SelRow) (url : String) (o : DiscoveryOutcome),
      o.success = true →
      (((discover_and_save store url o).1.saved = true)
        ↔ ((3 : ℚ)/10 < o.confidence ∧ ∃ c, o.selectors.container = some c ∧ c ≠ ""))
      ∧ (∀ (cnt : String → Nat) (cm : Nat),
          ((validate_selectors_against_html cnt o.selectors cm).valid = false
            ↔ (validate_selectors_against_html cnt o.selectors cm).adjusted_confidence
                < 6/10)) := by
  intro store url o hs
  constructor
  · by_cases hc : (3 : ℚ)/10 < o.confidence
    · cases hcont : o.selectors.container with
      | none => simp [discover_and_save, hs, hc, save_selectors_to_db, hcont]
      | some c =>
        by_cases hce : c = ""
        · simp [discover_and_save, hs, hc, save_selectors_to_db, hcont, hce]
        · simp [discover_and_save, hs, hc, save_selectors_to_db, hcont, hce]
    · simp [discover_and_save, hs, hc]
  · intro cnt cm
    cases hcont : o.selectors.container with
    | none => simp [validate_selectors_against_html, hcont]
    | some c =>
      by_cases hce : c = ""
      · simp [validate_selectors_against_html, hcont, hce]
      · by_cases hcm : cm = 0
        · simp [validate_selectors_against_html, hcont, hce, hcm]
        · simp [validate_selectors_against_html, hcont, hce, hcm]

/-- Witness for C4 amended at the concrete 0.5-confidence outcome. -/
theorem discover_and_save_amended_witness :
    ((discover_and_save [] url5 outcome4).1.saved = true
      ↔ ((3 : ℚ)/10 < outcome4.confidence
          ∧ ∃ c, outcome4.selectors.container = some c ∧ c ≠ "")) :=
  (discover_and_save_amended [] url5 outcome4 rfl).1

/-! ## C8 — target-group classification -/

/-- C8 counterexample: for the raw target text `Målgrupp: vuxna 3-6 år` the
source classifies by keyword first and returns `adults`, while the claimed
resolution order (age-range regex before keywords, `max ≤ 12 → children`)
returns `children`. -/
theorem classify_target_group_counterexample :
    classifyTargetGroup ("https://biblioteket.stockholm.se/evenemang")
        ("Målgrupp: vuxna 3-6 år") ("Filmkväll") ("All") = "adults"
    ∧ specClassifyTargetGroup ("https://biblioteket.stockholm.se/evenemang")
        ("Målgrupp: vuxna 3-6 år") ("Filmkväll") ("All") = "children"
    ∧ ("adults" : String) ≠ "children" :=
  ⟨by decide, by decide, by decide⟩

/-- C8 amended: resolution order with first match winning — (1) a listing
URL containing `forskolor` forces `preschool_groups`; (2) otherwise a raw
target text containing `målgrupp` has its value normalized with the keyword
sets taking precedence over age parsing (barn/kid/bebis/småbarn/förskola/
for children/för barn → children, ungdom/teen/tonåring/unga → teens,
familj/family → families, vuxen/vuxna/adult/senior → adults,
all/alla/general → all_ages), the age regex applying only when no keyword
matches (first number < 13 → children, 13–19 → teens, ≥ 20 → adults, else
all_ages); (3) otherwise age patterns in the event name are tried; (4)
otherwise the fallback target text is normalized as in (2). -/
theorem classify_target_group_amended :
    ∀ (url rawTarget eventName aiTarget : String),
      (containsL ("forskolor").data url.data = true →
        classifyTargetGroup url rawTarget eventName aiTarget = "preschool_groups")
      ∧ (containsL ("forskolor").data url.data = false →
          rawTarget ≠ "" →
          containsL ("målgrupp").data (lowerChars rawTarget.data) = true →
          classifyTargetGroup url rawTarget eventName aiTarget
            = simple_normalize (malgruppValue rawTarget))
      ∧ (containsL ("forskolor").data url.data = false →
          (rawTarget = "" ∨ containsL ("målgrupp").data (lowerChars rawTarget.data) = false) →
          (∀ disp norm, extract_target_from_name eventName = some (disp, norm) →
            classifyTargetGroup url rawTarget eventName aiTarget = norm)
          ∧ (extract_target_from_name eventName = none →
            classifyTargetGroup url rawTarget eventName aiTarget = simple_normalize aiTarget))
      ∧ (∀ t : String, t ≠ "" →
          kwChildren (lowerChars t.data) = false →
          kwTeens (lowerChars t.data) = false →
          kwFamilies (lowerChars t.data) = false →
          kwAdults (lowerChars t.data) = true →
          simple_normalize t = "adults")
      ∧ (∀ t : String, t ≠ "" →
          kwChildren (lowerChars t.data) = false → kwTeens (lowerChars t.data) = false →
          kwFamilies (lowerChars t.data) = false → kwAdults (lowerChars t.data) = false →
          kwAllAges (lowerChars t.data) = false →
          (∀ m, findAge (lowerChars t.data) = some m →
            simple_normalize t
              = (if m < 13 then "children" else if m < 20 then "teens" else "adults"))
          ∧ (findAge (lowerChars t.data) = none → simple_normalize t = "all_ages")) := by
  intro url rawTarget eventName aiTarget
  refine ⟨?_, ?_, ?_, ?_, ?_⟩
  · intro h
    simp [classifyTargetGroup, h]
  · intro h hne hmg
    simp [classifyTargetGroup, h, hne, hmg]
  · intro h hmg
    have hcond : ¬ (rawTarget ≠ "" ∧ containsL ("målgrupp").data (lowerChars rawTarget.data) = true) := by
      rcases hmg with h1 | h1 <;> simp [h1]
    constructor
    · intro disp norm hx
      simp [classifyTargetGroup, h, hcond, hx]
    · intro hx
      simp [classifyTargetGroup, h, hcond, hx]
  · intro t hne h1 h2 h3 h4
    simp [simple_normalize, hne, h1, h2, h3, h4]
  · intro t hne h1 h2 h3 h4 h5
    constructor
    · intro m hm
      simp [simple_normalize, hne, h1, h2, h3, h4, h5, hm]
    · intro hm
      simp [simple_normalize, hne, h1, h2, h3, h4, h5, hm]

/-- Witness for C8 amended: the `Målgrupp` branch at a concrete raw text. -/
theorem classify_target_group_amended_witness :
    classifyTargetGroup ("https://e.org/x") ("Målgrupp: vuxna 3-6 år") ("Filmkväll") ("All")
      = simple_normalize (malgruppValue ("Målgrupp: vuxna 3-6 år")) :=
  (classify_target_group_amended ("https://e.org/x") ("Målgrupp: vuxna 3-6 år")
    ("Filmkväll") ("All")).2.1 (by decide) (by decide) (by decide)

/-! ## C6 — the Skansen consolidation never runs -/

/-- C6: the Skansen branch buffers per-day events but returns after closing
the page (universal_spider.py lines 566-567), before the consolidation
block, so it emits nothing for any input; the unreachable consolidation
block itself would emit each buffered name once with `date_iso` the first
seen day and `end_date_iso` the last (as the claim describes) — shown here
on a concrete two-day run. -/
theorem skansen_branch_never_emits :
    (∀ (ty tm td : Nat) (url : String) (days : List (String × List SkItem)),
      skansenBranch ty tm td url days = [])
    ∧ skansenConsolidation (skansenLoop 2025 11 20 skUrl6 skDays6) = [skOut6] := by
  constructor
  · intro ty tm td url days
    rfl
  · decide

/-! ## C7 — filtered query pagination and windows -/

theorem expandIter_filter_bad (ev : EventRow) (fs : String) (hf : parseIso fs = none) :
    ∀ (k cur : Nat), expandIter ev (some fs) cur k = none
      ∨ expandIter ev (some fs) cur k = some [] := by
  intro k cur
  cases k with
  | zero => right; rfl
  | succ n => left; simp [expandIter, hf]

/-- Every row produced by expansion is either the stored row itself or a
one-day copy for a day in `[today, today + 30]`. -/
theorem mem_expand (today : Nat) (ev : EventRow) (fd : Option String) (x : EventRow)
    (hx : x ∈ expand_event_across_days today ev fd) :
    x = ev ∨ ∃ d, today ≤ d ∧ d ≤ today + 30 ∧ x = setDayCopy ev d := by
  by_cases he : ev.date_iso = ""
  · simp [expand_event_across_days, he] at hx
    exact Or.inl hx
  · cases hs : parseIso ev.date_iso with
    | none =>
      simp [expand_event_across_days, he, hs] at hx
      exact Or.inl hx
    | some s =>
      cases hend : ev.end_date_iso with
      | none =>
        simp [expand_event_across_days, he, hs, hend] at hx
        exact Or.inl hx
      | some es =>
        by_cases hna : es = "" ∨ es = "N/A"
        · simp [expand_event_across_days, he, hs, hend, hna] at hx
          exact Or.inl hx
        · cases hes : parseIso es with
          | none =>
            simp [expand_event_across_days, he, hs, hend, hna, hes] at hx
            exact Or.inl hx
          | some e =>
            by_cases heq : s = e
            · simp [expand_event_across_days, he, hs, hend, hna, hes, heq] at hx
              exact Or.inl hx
            · have hunf := expand_unfold today ev s e es hs hend hes heq fd
              rw [hunf] at hx
              cases fd with
              | none =>
                rw [expandIter_none ev] at hx
                obtain ⟨i, hi, rfl⟩ := List.mem_map.mp hx
                have hi' := List.mem_range.mp hi
                exact Or.inr ⟨max s today + i, by omega, by omega, rfl⟩
              | some fs =>
                cases hfp : parseIso fs with
                | none =>
                  rcases expandIter_filter_bad ev fs hfp
                      (min e (today + 30) + 1 - max s today) (max s today) with hb | hb
                  · rw [hb] at hx
                    simp at hx
                    exact Or.inl hx
                  · rw [hb] at hx
                    simp at hx
                | some fdv =>
                  rw [expandIter_filter ev fs fdv hfp] at hx
                  by_cases hc : max s today ≤ fdv
                      ∧ fdv < max s today + (min e (today + 30) + 1 - max s today)
                  · rw [if_pos hc] at hx
                    simp at hx
                    subst hx
                    exact Or.inr ⟨fdv, by omega, by omega, rfl⟩
                  · rw [if_neg hc] at hx
                    simp at hx

/-- C7 counterexample: with one stored event 2025-06-01 – 2025-06-21 and a
`This Week` query on 2025-06-01, the returned page contains events dated
after `today + 7` — expansion emits days past the requested window. -/
theorem get_events_filtered_counterexample :
    qWeek.dateRange = "This Week"
    ∧ (get_events_filtered [evLong] [] day0 qWeek).1.any
        (fun e => strLt (formatIso (day0 + 7)) e.date_iso) = true :=
  ⟨rfl, by decide⟩

/-- C7 amended: `filter(q)` returns at most `q.per_page` events; pagination
is applied after multi-day expansion and the returned `total` is the
expanded total (the page length is `min(per_page, total − (page−1)·per_page)`
for pages past the first); when no specific filter date is given every
returned event has `date_iso ≥ today`; and every returned event is either a
stored row or a one-day virtual copy of a stored row for a day in
`[today, today + 30]` — but its date is not guaranteed to lie inside the
`This Week` / `Next 30 Days` window, which constrains only the stored
`date_iso` before expansion. -/
theorem get_events_filtered_amended :
    ∀ (store : List EventRow) (urls : List SourceUrl) (today : Nat) (q : FilterQuery),
      ((get_events_filtered store urls today q).1.length ≤ q.perPage)
      ∧ ((get_events_filtered store urls today q).1.length
          = min q.perPage ((get_events_filtered store urls today q).2
              - (q.page - 1) * q.perPage))
      ∧ (q.filterDate = none → ∀ x ∈ (get_events_filtered store urls today q).1,
          strLe (formatIso today) x.date_iso = true)
      ∧ (∀ x ∈ (get_events_filtered store urls today q).1,
          x ∈ store ∨ ∃ ev ∈ store, ∃ d, today ≤ d ∧ d ≤ today + 30
            ∧ x = setDayCopy ev d) := by
  intro store urls today q
  have hsub : ∀ x ∈ (get_events_filtered store urls today q).1,
      x ∈ expandedEvents store urls today q := by
    intro x hx
    exact List.drop_subset _ _ (List.take_subset _ _ hx)
  refine ⟨?_, ?_, ?_, ?_⟩
  · exact List.length_take_le _ _
  · simp [get_events_filtered, List.length_take, List.length_drop]
  · intro hfd x hx
    have hx' := hsub x hx
    unfold expandedEvents at hx'
    rw [hfd] at hx'
    have hx'' := (List.Perm.mem_iff (List.perm_insertionSort _ _)).mp hx'
    exact (List.mem_filter.mp hx'').2
  · intro x hx
    have hx' := hsub x hx
    unfold expandedEvents at hx'
    have hx2 : x ∈ (sortByDate ((store.filter (sqlKeep urls (formatIso today)
        (formatIso (today + 7)) (formatIso (today + 30)) q)))).flatMap
          (fun ev => expand_event_across_days today ev q.filterDate) := by
      cases hfd : q.filterDate with
      | none =>
        rw [hfd] at hx'
        have := (List.Perm.mem_iff (List.perm_insertionSort _ _)).mp hx'
        exact (List.mem_filter.mp this).1
      | some fs =>
        rw [hfd] at hx'
        exact (List.Perm.mem_iff (List.perm_insertionSort _ _)).mp hx'
    obtain ⟨ev, hev, hxe⟩ := List.mem_flatMap.mp hx2
    have hev' : ev ∈ store :=
      (List.mem_filter.mp ((List.Perm.mem_iff (List.perm_insertionSort _ _)).mp hev)).1
    rcases mem_expand today ev q.filterDate x hxe with rfl | ⟨d, h1, h2, rfl⟩
    · exact Or.inl hev'
    · exact Or.inr ⟨ev, hev', d, h1, h2, rfl⟩

/-- Witness for C7 amended at a concrete store and query. -/
theorem get_events_filtered_amended_witness :
    ((get_events_filtered [evLong] [] day0 qWeek).1.length ≤ 20)
    ∧ (∀ x ∈ (get_events_filtered [evLong] [] day0 qWeek).1,
        strLe (formatIso day0) x.date_iso = true) :=
  ⟨(get_events_filtered_amended [evLong] [] day0 qWeek).1,
    fun x hx => (get_events_filtered_amended [evLong] [] day0 qWeek).2.2.1 rfl x hx⟩

/-! ## C9 / C3 — `parse_swedish_date` -/

theorem isPySpace_false_of_lt (c : Char) (h : 32 < c.toNat) : isPySpace c = false := by
  simp only [isPySpace, decide_eq_false_iff_not]
  omega

theorem digit_toNat {c : Char} (h : isDigitChar c = true) : 48 ≤ c.toNat ∧ c.toNat ≤ 57 := by
  simpa [isDigitChar] using h

theorem lstrip_cons_nospace {c : Char} (l : List Char) (h : isPySpace c = false) :
    lstripChars (c :: l) = c :: l := by
  simp [lstripChars, List.dropWhile_cons, h]

theorem rstrip_cons_nospace {c : Char} (l : List Char) (h : isPySpace c = false) :
    rstripChars (c :: l) = c :: rstripChars l := by
  have he : rstripChars (c :: l)
      = (match rstripChars l with
         | [] => if isPySpace c then [] else [c]
         | r => c :: r) := rfl
  cases hr : rstripChars l with
  | nil => rw [he, hr]; simp [h]
  | cons a as => rw [he, hr]

theorem rstrip_append_nospace (pre rest : List Char)
    (h : ∀ c ∈ pre, isPySpace c = false) :
    rstripChars (pre ++ rest) = pre ++ rstripChars rest := by
  induction pre with
  | nil => rfl
  | cons c pre ih =>
    rw [List.cons_append, rstrip_cons_nospace _ (h c (by simp)),
      ih (fun x hx => h x (by simp [hx]))]
    rfl

theorem toLowerPy_fix {c : Char} (h : c.toNat < 65) (h32 : 32 ≤ c.toNat) : toLowerPy c = c := by
  have hA : c ≠ 'Å' := by intro he; rw [he] at h; exact absurd h (by decide)
  have hA2 : c ≠ 'Ä' := by intro he; rw [he] at h; exact absurd h (by decide)
  have hO : c ≠ 'Ö' := by intro he; rw [he] at h; exact absurd h (by decide)
  have hup : ¬ (65 ≤ c.toNat ∧ c.toNat ≤ 90) := by omega
  simp [toLowerPy, hup, hA, hA2, hO]

/-- A character of the ISO-shape prefix (digit or dash) is untouched by
stripping and lowering. -/
theorem shapeChar_fix {c : Char} (h : isDigitChar c = true ∨ c = '-') :
    isPySpace c = false ∧ toLowerPy c = c := by
  rcases h with h | rfl
  · obtain ⟨h1, h2⟩ := digit_toNat h
    exact ⟨isPySpace_false_of_lt c (by omega), toLowerPy_fix (by omega) (by omega)⟩
  · exact ⟨by decide, by decide⟩

theorem shape10_decomp (l : List Char) (h : shape10 l = true) :
    ∃ c0 c1 c2 c3 c4 c5 c6 c7 c8 c9 rest,
      l = c0 :: c1 :: c2 :: c3 :: c4 :: c5 :: c6 :: c7 :: c8 :: c9 :: rest
      ∧ isDigitChar c0 = true ∧ isDigitChar c1 = true ∧ isDigitChar c2 = true
      ∧ isDigitChar c3 = true ∧ c4 = '-' ∧ isDigitChar c5 = true ∧ isDigitChar c6 = true
      ∧ c7 = '-' ∧ isDigitChar c8 = true ∧ isDigitChar c9 = true := by
  rcases l with _ | ⟨c0, _ | ⟨c1, _ | ⟨c2, _ | ⟨c3, _ | ⟨c4, _ | ⟨c5, _ | ⟨c6, _ | ⟨c7,
    _ | ⟨c8, _ | ⟨c9, rest⟩⟩⟩⟩⟩⟩⟩⟩⟩⟩ <;> simp [shape10] at h
  obtain ⟨⟨⟨⟨⟨⟨⟨⟨⟨h0, h1⟩, h2⟩, h3⟩, h4⟩, h5⟩, h6⟩, h7⟩, h8⟩, h9⟩ := h
  exact ⟨c0, c1, c2, c3, c4, c5, c6, c7, c8, c9, rest,
    rfl, h0, h1, h2, h3, h4, h5, h6, h7, h8, h9⟩

/-- Normalisation (`strip` then `lower`) keeps an ISO-shaped ten-character
prefix intact. -/
theorem normalize_shape (s : List Char) (h : shape10 s = true) :
    shape10 (lowerChars (stripChars s)) = true
    ∧ (lowerChars (stripChars s)).take 10 = s.take 10 := by
  obtain ⟨c0, c1, c2, c3, c4, c5, c6, c7, c8, c9, rest, rfl,
    h0, h1, h2, h3, h4, h5, h6, h7, h8, h9⟩ := shape10_decomp s h
  subst h4 h7
  have f0 := shapeChar_fix (Or.inl h0)
  have f1 := shapeChar_fix (Or.inl h1)
  have f2 := shapeChar_fix (Or.inl h2)
  have f3 := shapeChar_fix (Or.inl h3)
  have f4 := shapeChar_fix (c := '-') (Or.inr rfl)
  have f5 := shapeChar_fix (Or.inl h5)
  have f6 := shapeChar_fix (Or.inl h6)
  have f8 := shapeChar_fix (Or.inl h8)
  have f9 := shapeChar_fix (Or.inl h9)
  have hstrip : stripChars (c0 :: c1 :: c2 :: c3 :: '-' :: c5 :: c6 :: '-' :: c8 :: c9 :: rest)
      = c0 :: c1 :: c2 :: c3 :: '-' :: c5 :: c6 :: '-' :: c8 :: c9 :: rstripChars rest := by
    unfold stripChars
    rw [lstrip_cons_nospace _ f0.1]
    have := rstrip_append_nospace [c0, c1, c2, c3, '-', c5, c6, '-', c8, c9] rest
      (by
        intro x hx
        simp only [List.mem_cons, List.not_mem_nil, or_false] at hx
        rcases hx with rfl | rfl | rfl | rfl | rfl | rfl | rfl | rfl | rfl | rfl
        · exact f0.1
        · exact f1.1
        · exact f2.1
        · exact f3.1
        · exact f4.1
        · exact f5.1
        · exact f6.1
        · exact f4.1
        · exact f8.1
        · exact f9.1)
    simpa using this
  rw [hstrip]
  simp only [lowerChars, List.map_cons]
  rw [f0.2, f1.2, f2.2, f3.2, f4.2, f5.2, f6.2, f8.2, f9.2]
  constructor
  · simp [shape10, h0, h1, h2, h3, h5, h6, h8, h9]
  · simp [List.take]

/-- C9: any input whose first ten characters have the digit shape
`NNNN-NN-NN` is returned verbatim (its first ten characters), with no
calendar validation — e.g. `2025-99-99` comes back as `2025-99-99`. -/
theorem parse_swedish_date_iso_shape :
    ∀ (ty tm td : Nat) (s : String), shape10 s.data = true →
      parse_swedish_date ty tm td s = some (String.mk (s.data.take 10)) := by
  intro ty tm td s h
  have hne : s.data ≠ [] := by
    intro he
    rw [he] at h
    exact absurd h (by decide)
  obtain ⟨hsh, htk⟩ := normalize_shape s.data h
  unfold parse_swedish_date
  rw [if_neg hne]
  have : shape10 (normChars s) = true := hsh
  rw [if_pos this]
  unfold normChars
  rw [htk]

/-- Witness for C9: the shaped but non-calendar input `2025-99-99`. -/
theorem parse_swedish_date_iso_shape_witness :
    parse_swedish_date 2025 11 20 "2025-99-99" = some (String.mk (("2025-99-99").data.take 10)) :=
  parse_swedish_date_iso_shape 2025 11 20 ("2025-99-99") (by decide)

theorem natDigitsAux_inv : ∀ (f1 f2 n : Nat), n < f1 → n < f2 →
    natDigitsAux f1 n = natDigitsAux f2 n := by
  intro f1
  induction f1 with
  | zero => intro f2 n h _; exact absurd h (Nat.not_lt_zero n)
  | succ f ih =>
    intro f2 n h1 h2
    cases f2 with
    | zero => exact absurd h2 (Nat.not_lt_zero n)
    | succ g =>
      by_cases hn : n < 10
      · simp [natDigitsAux, hn]
      · have hd : n / 10 < n := Nat.div_lt_self (by omega) (by omega)
        simp only [natDigitsAux, if_neg hn]
        rw [ih g (n / 10) (by omega) (by omega)]

theorem natDigits_single {n : Nat} (h : n < 10) : natDigits n = [Char.ofNat (48 + n)] := by
  simp [natDigits, natDigitsAux, h]

theorem natDigits_step {n : Nat} (h : 10 ≤ n) :
    natDigits n = natDigits (n / 10) ++ [Char.ofNat (48 + n % 10)] := by
  have hd : n / 10 < n := Nat.div_lt_self (by omega) (by omega)
  have h1 : natDigits n = natDigitsAux n (n / 10) ++ [Char.ofNat (48 + n % 10)] := by
    simp [natDigits, natDigitsAux, Nat.not_lt.mpr h]
  rw [h1, natDigitsAux_inv n (n / 10 + 1) (n / 10) (by omega) (by omega)]
  rfl

theorem charOfNat_digit {k : Nat} (h : k < 10) : isDigitChar (Char.ofNat (48 + k)) = true := by
  have hv : (Char.ofNat (48 + k)).toNat = 48 + k := by
    unfold Char.ofNat
    rw [dif_pos (Or.inl (by omega : 48 + k < 55296))]
    rfl
  simp only [isDigitChar, hv, decide_eq_true_eq]
  omega

theorem mem_natDigitsAux_digit : ∀ (fuel n : Nat) (c : Char), c ∈ natDigitsAux fuel n →
    isDigitChar c = true := by
  intro fuel
  induction fuel with
  | zero => intro n c hc; simp [natDigitsAux] at hc
  | succ f ih =>
    intro n c hc
    by_cases hn : n < 10
    · simp [natDigitsAux, hn] at hc
      subst hc
      exact charOfNat_digit hn
    · simp only [natDigitsAux, if_neg hn, List.mem_append, List.mem_singleton] at hc
      rcases hc with hc | hc
      · exact ih _ _ hc
      · subst hc
        exact charOfNat_digit (Nat.mod_lt _ (by omega))

theorem mem_natDigits_digit {n : Nat} {c : Char} (hc : c ∈ natDigits n) :
    isDigitChar c = true :=
  mem_natDigitsAux_digit (n + 1) n c hc

theorem natDigits_len1 {n : Nat} (h : n < 10) : (natDigits n).length = 1 := by
  rw [natDigits_single h]
  rfl

theorem natDigits_len2 {n : Nat} (h1 : 10 ≤ n) (h2 : n ≤ 99) : (natDigits n).length = 2 := by
  have hq : n / 10 < 10 := (Nat.div_lt_iff_lt_mul (by norm_num)).mpr (by omega)
  rw [natDigits_step h1, List.length_append, natDigits_len1 hq]
  rfl

theorem natDigits_len3 {n : Nat} (h1 : 100 ≤ n) (h2 : n ≤ 999) : (natDigits n).length = 3 := by
  have hq1 : 10 ≤ n / 10 := (Nat.le_div_iff_mul_le (by norm_num)).mpr (by omega)
  have hq2 : n / 10 ≤ 99 := by
    have := Nat.div_le_div_right (c := 10) h2
    simpa using this
  rw [natDigits_step (by omega), List.length_append, natDigits_len2 hq1 hq2]
  rfl

theorem natDigits_len4 {n : Nat} (h1 : 1000 ≤ n) (h2 : n ≤ 9999) : (natDigits n).length = 4 := by
  have hq1 : 100 ≤ n / 10 := (Nat.le_div_iff_mul_le (by norm_num)).mpr (by omega)
  have hq2 : n / 10 ≤ 999 := by
    have := Nat.div_le_div_right (c := 10) h2
    simpa using this
  rw [natDigits_step (by omega), List.length_append, natDigits_len3 hq1 hq2]
  rfl

theorem list_four {α : Type} (l : List α) (h : l.length = 4) :
    ∃ a b c d, l = [a, b, c, d] := by
  rcases l with _ | ⟨a, _ | ⟨b, _ | ⟨c, _ | ⟨d, rest⟩⟩⟩⟩ <;> simp at h
  subst h
  exact ⟨a, b, c, d, rfl⟩

theorem padNum_two (m : Nat) (hm : m ≤ 99) :
    ∃ a b, padNum 2 m = [a, b] ∧ isDigitChar a = true ∧ isDigitChar b = true := by
  by_cases h : m < 10
  · refine ⟨'0', Char.ofNat (48 + m), ?_, by decide, charOfNat_digit h⟩
    rw [padNum, natDigits_single h]
    rfl
  · have h1 : 10 ≤ m := by omega
    have hl := natDigits_len2 h1 hm
    obtain ⟨a, b, hab⟩ := List.length_eq_two.mp hl
    refine ⟨a, b, ?_, ?_, ?_⟩
    · rw [padNum, hl, hab]
      rfl
    · exact mem_natDigits_digit (by rw [hab]; simp)
    · exact mem_natDigits_digit (by rw [hab]; simp)

theorem natDigits_four (y : Nat) (h1 : 1000 ≤ y) (h2 : y ≤ 9999) :
    ∃ a b c d, natDigits y = [a, b, c, d] ∧ isDigitChar a = true ∧ isDigitChar b = true
      ∧ isDigitChar c = true ∧ isDigitChar d = true := by
  obtain ⟨a, b, c, d, habcd⟩ := list_four (natDigits y) (natDigits_len4 h1 h2)
  refine ⟨a, b, c, d, habcd, ?_, ?_, ?_, ?_⟩ <;>
    exact mem_natDigits_digit (by rw [habcd]; simp)

/-- The string built by `parse_swedish_date` for a four-digit year and
two-digit month/day has the ISO shape. -/
theorem shape10_build (y m d : Nat) (hy1 : 1000 ≤ y) (hy2 : y ≤ 9999) (hm : m ≤ 99)
    (hd : d ≤ 99) :
    shape10 (natDigits y ++ '-' :: (padNum 2 m ++ '-' :: padNum 2 d)) = true := by
  obtain ⟨a, b, c, dd, hy, ha, hb, hc, hdd⟩ := natDigits_four y hy1 hy2
  obtain ⟨m1, m2, hm12, hm1, hm2⟩ := padNum_two m hm
  obtain ⟨d1, d2, hd12, hd1, hd2⟩ := padNum_two d hd
  rw [hy, hm12, hd12]
  simp [shape10, ha, hb, hc, hdd, hm1, hm2, hd1, hd2]

theorem yearAt_bound (l : List Char) (y : Nat) (h : yearAt l = some y) :
    2000 ≤ y ∧ y ≤ 2099 := by
  rcases l with _ | ⟨c0, _ | ⟨c1, _ | ⟨a, _ | ⟨b, rest⟩⟩⟩⟩ <;> simp [yearAt] at h
  obtain ⟨⟨h2, h0, ha, hb, hbd⟩, hv⟩ := h
  obtain ⟨ha1, ha2⟩ := digit_toNat ha
  obtain ⟨hb1, hb2⟩ := digit_toNat hb
  omega

theorem findYearAux_bound : ∀ (l : List Char) (w : Bool) (y : Nat),
    findYearAux w l = some y → 2000 ≤ y ∧ y ≤ 2099 := by
  intro l
  induction l with
  | nil => intro w y h; simp [findYearAux] at h
  | cons c cs ih =>
    intro w y h
    unfold findYearAux at h
    by_cases hw : w = true
    · rw [hw] at h
      simp at h
      exact ih _ _ h
    · have hw' : w = false := by simpa using hw
      rw [hw'] at h
      simp only [Bool.false_eq_true, if_false] at h
      cases hy : yearAt (c :: cs) with
      | none => rw [hy] at h; exact ih _ _ h
      | some z =>
        rw [hy] at h
        simp at h
        subst h
        exact yearAt_bound _ _ hy

theorem findYear_bound (l : List Char) (y : Nat) (h : findYear l = some y) :
    2000 ≤ y ∧ y ≤ 2099 :=
  findYearAux_bound l false y h

theorem digitsVal_one_le {d1 : Char} (h1 : isDigitChar d1 = true) : digitsVal [d1] ≤ 9 := by
  obtain ⟨a, b⟩ := digit_toNat h1
  simp [digitsVal]
  omega

theorem digitsVal_two_le {d1 d2 : Char} (h1 : isDigitChar d1 = true)
    (h2 : isDigitChar d2 = true) : digitsVal [d1, d2] ≤ 99 := by
  obtain ⟨a1, b1⟩ := digit_toNat h1
  obtain ⟨a2, b2⟩ := digit_toNat h2
  simp [digitsVal]
  omega

theorem dayMonthAt_bound (l : List Char) (day : Nat) (nm : List Char)
    (h : dayMonthAt l = some (day, nm)) : day ≤ 99 := by
  rcases l with _ | ⟨d1, rest1⟩
  · simp [dayMonthAt] at h
  · unfold dayMonthAt at h
    by_cases hd1 : isDigitChar d1 = true
    · simp only [hd1, if_true] at h
      rcases rest1 with _ | ⟨d2, rest2⟩
      · simp at h
      · by_cases hd2 : isDigitChar d2 = true
        · simp only [hd2, if_true] at h
          cases hmt : monthTail rest2 with
          | some nm2 =>
            rw [hmt] at h
            simp at h
            obtain ⟨hv, _⟩ := h
            rw [← hv]
            exact digitsVal_two_le hd1 hd2
          | none =>
            rw [hmt] at h
            cases hmt1 : monthTail (d2 :: rest2) with
            | some nm1 =>
              rw [hmt1] at h
              simp at h
              obtain ⟨hv, _⟩ := h
              rw [← hv]
              exact le_trans (digitsVal_one_le hd1) (by omega)
            | none => rw [hmt1] at h; simp at h
        · simp only [hd2, Bool.false_eq_true, if_false] at h
          cases hmt1 : monthTail (d2 :: rest2) with
          | some nm1 =>
            rw [hmt1] at h
            simp at h
            obtain ⟨hv, _⟩ := h
            rw [← hv]
            exact le_trans (digitsVal_one_le hd1) (by omega)
          | none => rw [hmt1] at h; simp at h
    · simp only [hd1, Bool.false_eq_true, if_false] at h
      cases h

theorem findDayMonth_bound : ∀ (l : List Char) (day : Nat) (nm : List Char),
    findDayMonth l = some (day, nm) → day ≤ 99 := by
  intro l
  induction l with
  | nil => intro day nm h; simp [findDayMonth] at h
  | cons c cs ih =>
    intro day nm h
    unfold findDayMonth at h
    cases hda : dayMonthAt (c :: cs) with
    | some p =>
      obtain ⟨d0, n0⟩ := p
      rw [hda] at h
      simp at h
      obtain ⟨h1, h2⟩ := h
      subst h1
      subst h2
      exact dayMonthAt_bound _ _ _ hda
    | none =>
      rw [hda] at h
      exact ih _ _ h

theorem swedishMonth_bound (nm : List Char) (m : Nat) (h : swedishMonth nm = some m) :
    1 ≤ m ∧ m ≤ 12 := by
  unfold swedishMonth at h
  cases hf : swedishMonthTable.find? (fun p => p.1.data = nm) with
  | none => rw [hf] at h; cases h
  | some p =>
    rw [hf] at h
    simp only [Option.map_some'] at h
    obtain rfl := Option.some.inj h
    have hmem := List.mem_of_find?_eq_some hf
    have hall : swedishMonthTable.all (fun p => decide (1 ≤ p.2 ∧ p.2 ≤ 12)) = true := by decide
    have := List.all_eq_true.mp hall p hmem
    simpa using this

theorem shape10_take (l : List Char) (h : shape10 l = true) :
    shape10 (l.take 10) = true := by
  obtain ⟨c0, c1, c2, c3, c4, c5, c6, c7, c8, c9, rest, rfl,
    h0, h1, h2, h3, h4, h5, h6, h7, h8, h9⟩ := shape10_decomp l h
  subst h4 h7
  simp [shape10, h0, h1, h2, h3, h5, h6, h8, h9, List.take]

/-- C3: `parse_swedish_date` returns null or an ISO-shaped `NNNN-NN-NN`
string (it never raises — it is a total function); an input whose
normalised (stripped, lowercased) form begins with the ISO shape yields
exactly that ten-character prefix; and for a day-and-month form with no
explicit `20NN` year in the text, the inferred year is the current year,
rolled forward by one exactly when the resolved `(month, day)` is
lexicographically before today's `(month, day)`. -/
theorem parse_swedish_date_contract :
    ∀ (ty tm td : Nat), 1000 ≤ ty → ty ≤ 9998 →
      (∀ (s r : String), parse_swedish_date ty tm td s = some r → shape10 r.data = true)
      ∧ (∀ s : String, shape10 (normChars s) = true →
          parse_swedish_date ty tm td s = some (String.mk ((normChars s).take 10)))
      ∧ (∀ (s : String) (day : Nat) (mname : List Char) (mon : Nat),
          shape10 (normChars s) = false →
          findDayMonth (normChars s) = some (day, mname) →
          swedishMonth mname = some mon →
          findYear (normChars s) = none →
          parse_swedish_date ty tm td s
            = some (String.mk (natDigits
                (if mon < tm ∨ (mon = tm ∧ day < td) then ty + 1 else ty)
                ++ '-' :: (padNum 2 mon ++ '-' :: padNum 2 day)))) := by
  intro ty tm td hty1 hty2
  have hnorm_nil : ∀ s : String, s.data = [] → normChars s = [] := by
    intro s he
    unfold normChars
    rw [he]
    rfl
  refine ⟨?_, ?_, ?_⟩
  · intro s r hr
    unfold parse_swedish_date at hr
    by_cases hne : s.data = []
    · rw [if_pos hne] at hr
      cases hr
    · rw [if_neg hne] at hr
      by_cases hsh : shape10 (normChars s) = true
      · rw [if_pos hsh] at hr
        obtain rfl := Option.some.inj hr
        exact shape10_take _ hsh
      · rw [if_neg hsh] at hr
        cases hdm : findDayMonth (normChars s) with
        | none => rw [hdm] at hr; simp at hr
        | some p =>
          obtain ⟨day, mname⟩ := p
          rw [hdm] at hr
          simp only [Option.some_bind] at hr
          cases hsm : swedishMonth mname with
          | none => simp only [hsm, Option.map_none'] at hr; cases hr
          | some mon =>
            simp only [hsm, Option.map_some'] at hr
            obtain rfl := Option.some.inj hr
            have hday : day ≤ 99 := findDayMonth_bound _ _ _ hdm
            have hmon := swedishMonth_bound _ _ hsm
            cases hfy : findYear (normChars s) with
            | some z =>
              have hz := findYear_bound _ _ hfy
              simp only [hfy, Option.getD_some]
              exact shape10_build z mon day (by omega) (by omega) (by omega) hday
            | none =>
              simp only [hfy, Option.getD_none]
              by_cases hroll : mon < tm ∨ (mon = tm ∧ day < td) <;>
                [rw [if_pos hroll]; rw [if_neg hroll]] <;>
                exact shape10_build _ mon day (by omega) (by omega) (by omega) hday
  · intro s hsh
    have hne : s.data ≠ [] := by
      intro he
      rw [hnorm_nil s he] at hsh
      exact absurd hsh (by decide)
    unfold parse_swedish_date
    rw [if_neg hne, if_pos hsh]
  · intro s day mname mon hsh hdm hsm hfy
    have hne : s.data ≠ [] := by
      intro he
      rw [hnorm_nil s he] at hdm
      simp [findDayMonth] at hdm
    unfold parse_swedish_date
    rw [if_neg hne, if_neg (by simp [hsh]), hdm]
    simp only [Option.some_bind, hsm, Option.map_some', hfy, Option.getD_none]

/-- Witness for C3: `10 november` seen on 2025-11-20 rolls forward to
2026-11-10 (month equal, day before today). -/
theorem parse_swedish_date_contract_witness :
    parse_swedish_date 2025 11 20 "10 november"
      = some (String.mk (natDigits (if 11 < 11 ∨ (11 = 11 ∧ 10 < 20) then 2025 + 1 else 2025)
          ++ '-' :: (padNum 2 11 ++ '-' :: padNum 2 10))) :=
  (parse_swedish_date_contract 2025 11 20 (by decide) (by decide)).2.2
    ("10 november") 10 (("november").data) 11 (by decide) (by decide) (by decide) (by decide)

end AutoEvent
